import Mathlib

/-!
Verification of the memory-tiering subsystem (qdrant-memory / mem-redis
tooling): a shallow embedding of the Promotion/Backup, Capture,
Fact-Extraction and Retrieval components, with theorems about the spec's
claims.  Python dicts become association lists, external collaborators
(Embedding Provider, Vector Store, Redis) become explicit state plus
success/failure oracles, and wall-clock values become parameters.
-/

namespace MemSpec

/-- JSON-like values stored in Vector Store point payloads. -/
inductive JVal where
  | s (v : String)
  | n (v : Nat)
  | b (v : Bool)
  | arr (v : List String)
  deriving DecidableEq, Repr

/-- A point payload: association list mirroring the Python dict, in the
key order the source constructs it. -/
abbrev Payload := List (String × JVal)

/-- A durable Vector Store point.  The Embedding Provider is an external
collaborator returning an opaque vector that is a function of the input
text, so the embedded text itself stands in for the vector. -/
structure MPoint where
  vec : String
  payload : Payload
  deriving DecidableEq, Repr

/-- The Vector Store contents.  Every upsert in the scripts uses a fresh
`uuid4` id, so an upsert always appends a new point. -/
abbrev Store := List MPoint

/-- Python slice `s[:n]`: the first `n` characters (code points). -/
def pyTake (s : String) (n : Nat) : String := ⟨s.data.take n⟩

/-- Python slice `s[n:]`: drop the first `n` characters. -/
def pyDrop (s : String) (n : Nat) : String := ⟨s.data.drop n⟩

/-- Python `str.strip()`: drop leading and trailing whitespace.  (Python
also strips `\x0b`/`\x0c` and Unicode spaces; `Char.isWhitespace` covers
the characters that occur here.) -/
def pyStrip (s : String) : String :=
  ⟨((s.data.dropWhile Char.isWhitespace).reverse.dropWhile Char.isWhitespace).reverse⟩

/-- ASCII lower-casing of one character (the only case the inputs here
exercise; Python's `str.lower()` is full Unicode). -/
def pyLowerChar (c : Char) : Char :=
  if 'A' ≤ c && c ≤ 'Z' then Char.ofNat (c.toNat + 32) else c

/-- Python `str.lower()`. -/
def pyLower (s : String) : String := ⟨s.data.map pyLowerChar⟩

/-- Python `s.startswith(pre)`. -/
def pyStartsWith (s pre : String) : Bool := pre.data.isPrefixOf s.data

/-- One occurrence of the (non-empty) needle anywhere in the haystack. -/
def hasOccur (needle : List Char) : List Char → Bool
  | [] => needle.isEmpty
  | c :: rest => needle.isPrefixOf (c :: rest) || hasOccur needle rest

/-- Python `needle in hay` substring test (an empty needle is always in). -/
def pyInStr (needle hay : String) : Bool :=
  needle == "" || hasOccur needle.data hay.data

/-- The cut loop of Python `s.split(sep)` for a non-empty `sep`
(`s1 :: srest`): scan left to right, cutting at each non-overlapping
occurrence.  `acc` is the reversed current segment.  `fuel` bounds the
recursion structurally; every step consumes at least one character, so
`fuel = l.length` never runs out. -/
def splitOnAux (s1 : Char) (srest : List Char) : Nat → List Char → List Char → List (List Char)
  | _, [], acc => [acc.reverse]
  | 0, _ :: _, acc => [acc.reverse]
  | fuel + 1, c :: rest, acc =>
    if (s1 :: srest).isPrefixOf (c :: rest) then
      acc.reverse :: splitOnAux s1 srest fuel (rest.drop srest.length) []
    else splitOnAux s1 srest fuel rest (c :: acc)

/-- Python `s.split(sep)` for a non-empty separator (Python raises
`ValueError` on an empty one; no caller here passes it, and `[s]` stands
in for that case). -/
def pySplitOn (s sep : String) : List String :=
  match sep.data with
  | [] => [s]
  | c :: cs => (splitOnAux c cs s.data.length s.data []).map fun l => ⟨l⟩

/-- Python `s.replace(old, new)` = `new.join(s.split(old))` for a
non-empty `old` (the only case used here). -/
def pyReplace (s old new : String) : String :=
  String.intercalate new (pySplitOn s old)

/-- Lexicographic comparison of char lists by code point: Python `<` on
strings. -/
def lexLt : List Char → List Char → Bool
  | [], [] => false
  | [], _ :: _ => true
  | _ :: _, [] => false
  | a :: as, b :: bs =>
    if a < b then true else if b < a then false else lexLt as bs

/-- Python `a < b` on strings. -/
def strLt (a b : String) : Bool := lexLt a.data b.data

/-- Stable insertion of `x` after every element `y` with `le y x`:
the insertion step of a stable sort. -/
def pyInsert (le : α → α → Bool) (x : α) : List α → List α
  | [] => [x]
  | y :: ys => if le y x then y :: pyInsert le x ys else x :: y :: ys

/-- Stable sort by the boolean comparator `le`; on a total `le` this yields
the same list as Python's stable `sorted` (a stable sort is unique). -/
def pySort (le : α → α → Bool) (l : List α) : List α :=
  l.foldl (fun acc x => pyInsert le x acc) []

/-! ## auto_store.py — `store_conversation_turn` and its helpers -/

namespace AutoStore

/-- `get_content_hash`: the source computes the SHA-256 hex digest of
`f"{user_msg.strip()}::{ai_response.strip()}"`.  The digest is modelled by
the hashed string itself, a collision-free stand-in for SHA-256 (equal
inputs give equal hashes; the dedup contract additionally assumes the
digest is collision-free). -/
def get_content_hash (user_msg ai_response : String) : String :=
  pyStrip user_msg ++ "::" ++ pyStrip ai_response

/-- The scroll filter used by `is_duplicate`: the payload must carry
`user_id = uid` and `content_hash = h`. -/
def matchesDup (uid h : String) (p : MPoint) : Bool :=
  decide (p.payload.lookup "user_id" = some (JVal.s uid)) &&
  decide (p.payload.lookup "content_hash" = some (JVal.s h))

/-- The per-process `_recent_hashes` set (distinct hashes only). -/
abbrev HashCache := List String

/-- `mark_stored`: add the hash to `_recent_hashes`; when the set exceeds
1000 entries it is cleared wholesale. -/
def mark_stored (user_msg ai_response : String) (c : HashCache) : HashCache :=
  let h := get_content_hash user_msg ai_response
  let c' := if c.contains h then c else h :: c
  if 1000 < c'.length then [] else c'

/-- `is_duplicate`: in-memory cache first, then a Qdrant scroll on
`(user_id, content_hash)`.  `dedupQueryOk = false` models the scroll
request raising (timeout / connection failure), which the source swallows
and treats as "not a duplicate". -/
def is_duplicate (dedupQueryOk : Bool) (st : Store) (c : HashCache)
    (user_id user_msg ai_response : String) : Bool :=
  let h := get_content_hash user_msg ai_response
  c.contains h || (dedupQueryOk && st.any (matchesDup user_id h))

/-- Success/failure of the external calls one `store_conversation_turn`
invocation makes: the dedup scroll, and the embed + upsert of the user
point, the assistant point and the summary point.  `false` models a
timeout, connection failure or non-ok status from the external
collaborator. -/
structure CallEnv where
  dedupQueryOk : Bool
  userEmbedOk : Bool
  userUpsertOk : Bool
  aiEmbedOk : Bool
  aiUpsertOk : Bool
  sumEmbedOk : Bool
  sumUpsertOk : Bool
  deriving DecidableEq, Repr

/-- Every external call succeeds. -/
def CallEnv.allOk : CallEnv := ⟨true, true, true, true, true, true, true⟩

/-- The payload `store_memory_point` builds, keys in source order;
`now` stands for `datetime.now().isoformat()`. -/
def memory_point_payload (user_id text speaker date_str : String)
    (conversation_id : String) (turn_number : Nat) (session_id : Option String)
    (tags : List String) (importance : String) (content_hash : Option String)
    (now : String) : Payload :=
  [("user_id", .s user_id), ("text", .s text), ("date", .s date_str),
   ("tags", .arr tags), ("importance", .s importance),
   ("source", .s "conversation_auto"),
   ("source_type", .s (if speaker == "user" then "user" else "assistant")),
   ("category", .s "Full Conversation"), ("confidence", .s "high"),
   ("verified", .b true), ("created_at", .s now), ("access_count", .n 0),
   ("last_accessed", .s now), ("conversation_id", .s conversation_id),
   ("turn_number", .n turn_number), ("session_id", .s (session_id.getD ""))]
  ++ (match content_hash with
      | some h => [("content_hash", JVal.s h)]
      | none => [])

/-- `store_memory_point`: one embedding request then one single-point
upsert; returns the updated store and whether a point id was returned.
The embedding input is `text[:8192]`. -/
def store_memory_point (embedOk upsertOk : Bool) (user_id text speaker date_str : String)
    (conversation_id : String) (turn_number : Nat) (session_id : Option String)
    (tags : List String) (importance : String) (content_hash : Option String)
    (now : String) (st : Store) : Store × Bool :=
  if embedOk then
    if upsertOk then
      (st ++ [⟨pyTake text 8192,
        memory_point_payload user_id text speaker date_str conversation_id
          turn_number session_id tags importance content_hash now⟩], true)
    else (st, false)
  else (st, false)

/-- `generate_conversation_summary`. -/
def generate_conversation_summary (user_msg ai_response : String) : String :=
  "Q: " ++ pyTake user_msg 200 ++ " A: " ++ pyTake ai_response 300

/-- The summary point's payload (built inline in
`store_conversation_turn`), keys in source order. -/
def summary_payload (user_id summary_text date_str : String) (tags : List String)
    (importance conversation_id : String) (turn_number : Nat)
    (session_id : Option String) (content_hash user_message ai_response now : String) :
    Payload :=
  [("user_id", .s user_id), ("text", .s summary_text), ("date", .s date_str),
   ("tags", .arr (tags ++ ["summary", "combined"])), ("importance", .s importance),
   ("source", .s "conversation_summary"), ("source_type", .s "system"),
   ("category", .s "Conversation Summary"), ("confidence", .s "high"),
   ("verified", .b true), ("created_at", .s now), ("access_count", .n 0),
   ("last_accessed", .s now), ("conversation_id", .s conversation_id),
   ("turn_number", .n turn_number), ("session_id", .s (session_id.getD "")),
   ("content_hash", .s content_hash),
   ("user_message", .s (pyTake user_message 500)),
   ("ai_response", .s (pyTake ai_response 800))]

/-- The dict `store_conversation_turn` returns, point ids abstracted to
whether one was returned. -/
structure TurnResult where
  user_point_id : Bool
  ai_point_id : Bool
  success : Bool
  skipped : Bool
  deriving DecidableEq, Repr

/-- The keyword scan deciding `importance`. -/
def keywordHit (user_message ai_response : String) : Bool :=
  ["remember", "important", "always", "never", "rule"].any
    (fun kw => pyInStr kw (pyLower (user_message ++ ai_response)))

/-- `store_conversation_turn`: dedup check, then the user point, the
assistant point and the summary point, written by three separate
single-point upserts.  An empty `user_id` raises `ValueError`, modelled
as `.error`.  `conversation_id = none` is replaced by a fresh uuid4
(modelled by an opaque constant), `turn_number = none` by 1, and
`date_str = none` by today's date (`today`). -/
def store_conversation_turn (env : CallEnv) (now today : String)
    (user_id user_message ai_response : String)
    (conversation_id : Option String) (turn_number : Option Nat)
    (session_id : Option String) (date_str : Option String)
    (skip_if_duplicate : Bool) (c : HashCache) (st : Store) :
    Except String (HashCache × Store × TurnResult) :=
  if user_id == "" then .error "user_id is required for Mem0-style storage"
  else
    let date := date_str.getD today
    if skip_if_duplicate && is_duplicate env.dedupQueryOk st c user_id user_message ai_response then
      .ok (c, st, ⟨false, false, true, true⟩)
    else
      let conv := conversation_id.getD "generated-uuid4"
      let turn := turn_number.getD 1
      let tags := ["conversation", "user:" ++ user_id, date] ++
        (match session_id with
         | some sid => if sid != "" then ["session:" ++ pyTake sid 8] else []
         | none => [])
      let importance := if keywordHit user_message ai_response then "high" else "medium"
      let h := get_content_hash user_message ai_response
      let r1 := store_memory_point env.userEmbedOk env.userUpsertOk user_id
        ("[" ++ user_id ++ "]: " ++ user_message) "user" date conv turn session_id
        (tags ++ ["user-message"]) importance (some h) now st
      let r2 := store_memory_point env.aiEmbedOk env.aiUpsertOk user_id
        ("[Kimi]: " ++ ai_response) "assistant" date conv turn session_id
        (tags ++ ["ai-response"]) importance (some h) now r1.1
      let summary_text := "[Turn " ++ toString turn ++ "] " ++
        generate_conversation_summary user_message ai_response
      let st3 := if env.sumEmbedOk && env.sumUpsertOk then
          r2.1 ++ [⟨pyTake summary_text 8192,
            summary_payload user_id summary_text date tags importance conv turn
              session_id h user_message ai_response now⟩]
        else r2.1
      let c' := if r1.2 && r2.2 then mark_stored user_message ai_response c else c
      .ok (c', st3, ⟨r1.2, r2.2, r1.2 && r2.2, false⟩)

/-- The arguments of one `store_conversation_turn` invocation, together
with its external-call environment: one element of an arbitrary sequence
of store operations. -/
structure StoreOp where
  env : CallEnv
  now : String
  today : String
  user_id : String
  user_message : String
  ai_response : String
  conversation_id : Option String
  turn_number : Option Nat
  session_id : Option String
  date_str : Option String
  skip_if_duplicate : Bool

/-- Run a sequence of `store_conversation_turn` operations against the
cache and store; a raised `ValueError` leaves the state unchanged. -/
def run_store_ops : List StoreOp → HashCache × Store → HashCache × Store
  | [], s => s
  | op :: rest, (c, st) =>
    match store_conversation_turn op.env op.now op.today op.user_id
      op.user_message op.ai_response op.conversation_id op.turn_number
      op.session_id op.date_str op.skip_if_duplicate c st with
    | .error _ => run_store_ops rest (c, st)
    | .ok out => run_store_ops rest (out.1, out.2.1)

/-- How many points of the store carry `(user_id, content_hash) = (uid, h)`
and the given `source_type`. -/
def typedDupCount (st : Store) (uid h ty : String) : Nat :=
  (st.filter fun p => matchesDup uid h p &&
    p.payload.lookup "source_type" == some (JVal.s ty)).length

/-- How many points of the store carry `(user_id, content_hash) = (uid, h)`
and a `source_type` other than `system`. -/
def nonSystemDupCount (st : Store) (uid h : String) : Nat :=
  (st.filter fun p => matchesDup uid h p &&
    !(p.payload.lookup "source_type" == some (JVal.s "system"))).length

end AutoStore

/-! ## cron_backup.py — the daily Promotion/Backup run -/

namespace CronBackup

/-- One decoded Redis buffer item: a JSON dict whose fields the scripts
access through `dict.get`, hence every field is optional. -/
structure Turn where
  role : Option String
  content : Option String
  timestamp : Option String
  turn : Option Nat
  deriving DecidableEq, Repr

/-- The sort key comparator of `store_to_qdrant`:
`(t.get('timestamp', ''), t.get('turn', 0))`, compared as a Python tuple. -/
def sortKeyLe (a b : Turn) : Bool :=
  let ta := a.timestamp.getD ""
  let tb := b.timestamp.getD ""
  if ta == tb then a.turn.getD 0 ≤ b.turn.getD 0 else strLt ta tb

/-- `turns_sorted = sorted(turns, key=...)`: Python's stable ascending sort. -/
def sortTurns (turns : List Turn) : List Turn := pySort sortKeyLe turns

/-- The inner `while` of `store_to_qdrant`: the nearest following
`assistant` content, stopping at the next `user` entry; `""` when none is
found before the list (or the search window) ends. -/
def find_next_assistant : List Turn → String
  | [] => ""
  | t :: rest =>
    if t.role.getD "" == "assistant" then t.content.getD ""
    else if t.role.getD "" == "user" then ""
    else find_next_assistant rest

/-- The (user_message, ai_response) exchanges the backup loop attempts, in
order: one per `user`-role entry of the (sorted) list. -/
def pair_ups : List Turn → List (String × String)
  | [] => []
  | t :: rest =>
    if t.role.getD "" != "user" then pair_ups rest
    else (t.content.getD "", find_next_assistant rest) :: pair_ups rest

/-- The per-turn loop of `store_to_qdrant` over the sorted list: for each
`user` entry, pair it with `find_next_assistant` of its tail and call
`store_conversation_turn`.  `i` is the enumeration index (the default
`turn_number`), `k` counts attempted exchanges and indexes the per-call
environment `envs`.  Returns the final cache and store and one
result per attempt (`.error` = the `try` body raised). -/
def backupLoop (envs : Nat → AutoStore.CallEnv) (now today user_id : String) :
    List Turn → Nat → Nat → AutoStore.HashCache → Store →
    AutoStore.HashCache × Store × List (Except String AutoStore.TurnResult)
  | [], _, _, c, st => (c, st, [])
  | t :: rest, i, k, c, st =>
    if t.role.getD "" != "user" then backupLoop envs now today user_id rest (i+1) k c st
    else
      let ai := find_next_assistant rest
      let conv := "mem-buffer-" ++ pyTake (t.timestamp.getD "unknown") 10
      match AutoStore.store_conversation_turn (envs k) now today user_id
        (t.content.getD "") ai (some conv) (some (t.turn.getD i)) none none true c st with
      | .error e =>
        let r := backupLoop envs now today user_id rest (i+1) (k+1) c st
        (r.1, r.2.1, .error e :: r.2.2)
      | .ok (c1, st1, res) =>
        let r := backupLoop envs now today user_id rest (i+1) (k+1) c1 st1
        (r.1, r.2.1, .ok res :: r.2.2)

/-- `result.get('success') or result.get('skipped')` for one attempt; a
raised exception counts as neither. -/
def storedOrSkipped : Except String AutoStore.TurnResult → Bool
  | .ok r => r.success || r.skipped
  | .error _ => false

/-- `store_to_qdrant` (with Qdrant importable): sort, return `True` when
there is no `user` turn at all, otherwise run the loop and succeed only
when every attempted exchange was stored or skipped.  Returns the updated
store, the success flag and the per-attempt results. -/
def store_to_qdrant (envs : Nat → AutoStore.CallEnv) (now today : String)
    (turns : List Turn) (user_id : String) (st : Store) :
    Store × Bool × List (Except String AutoStore.TurnResult) :=
  let sorted := sortTurns turns
  let user_turns := sorted.filter (fun t => t.role.getD "" == "user")
  if user_turns.isEmpty then (st, true, [])
  else
    let r := backupLoop envs now today user_id sorted 0 0 [] st
    let results := r.2.2
    let success_count := (results.filter storedOrSkipped).length
    let attempted := results.length
    (r.2.1, decide (0 < attempted) && decide (success_count = attempted), results)

/-- What one `cron_backup.py main()` run did: its exit code, whether the
Redis buffer key was deleted, the final Vector Store, whether a JSONL
file backup was written, and the per-attempt results. -/
structure RunOutcome where
  exitCode : Nat
  cleared : Bool
  store : Store
  fileBackup : Bool
  results : List (Except String AutoStore.TurnResult)
  deriving Repr

/-- `main()`: read the buffer (`read_ok = false` models a Redis read
error, `turns` the decoded items), attempt Qdrant storage, fall back to a
file backup on failure (still exiting non-zero, buffer preserved), and
clear the Redis key only after `store_to_qdrant` reported success.
`file_ok` / `clear_ok` model the file write and the Redis `DELETE`
succeeding. -/
def cron_backup_main (envs : Nat → AutoStore.CallEnv) (now today : String)
    (dry_run : Bool) (read_ok : Bool) (turns : List Turn) (user_id : String)
    (file_ok clear_ok : Bool) (st : Store) : RunOutcome :=
  if !read_ok then ⟨1, false, st, false, []⟩
  else if turns.isEmpty then ⟨0, false, st, false, []⟩
  else if dry_run then ⟨0, false, st, false, []⟩
  else
    let r := store_to_qdrant envs now today turns user_id st
    if !r.2.1 then ⟨1, false, r.1, file_ok, r.2.2⟩
    else if clear_ok then ⟨0, true, r.1, false, r.2.2⟩
    else ⟨1, false, r.1, false, r.2.2⟩

end CronBackup

/-! ## cron_capture.py — the Capture component's message parsing -/

namespace CronCapture

/-- One element of a list-shaped message content: a dict that may carry a
string under `"text"` and/or `"thinking"` (a missing key or a non-string
value is `none`), or a non-dict element (skipped by the source). -/
inductive CItem where
  | item (text : Option String) (thinking : Option String)
  | nonDict
  deriving DecidableEq, Repr

/-- `msg.get("content")`: a plain string, a list of tagged fragments, or
anything else (`None`, a dict, …). -/
inductive MsgContent where
  | str (s : String)
  | list (items : List CItem)
  | other
  deriving DecidableEq, Repr

/-- `extract_text_and_thinking`: a plain string is returned as-is (NOT
stripped); a fragment list is concatenated and stripped, the thinking
fragments joined with newlines and stripped (None when there were none). -/
def extract_text_and_thinking : MsgContent → String × Option String
  | .str s => (s, none)
  | c =>
    let items := match c with | .list l => l | _ => []
    let text_parts := items.filterMap fun it =>
      match it with | .item t _ => t | .nonDict => none
    let thinking_parts := items.filterMap fun it =>
      match it with | .item _ th => th | .nonDict => none
    (pyStrip (String.join text_parts),
     if thinking_parts.isEmpty then none
     else some (pyStrip (String.intercalate "\n" thinking_parts)))

/-- One line of the transcript file: either one that fails to parse as
JSON (skipped) or a parsed record. -/
inductive TLine where
  | malformed
  | entry (etype : String) (hasMessage : Bool) (role : Option String)
      (content : MsgContent) (timestamp : Option String)
  deriving DecidableEq, Repr

/-- The `ParsedMessage` dataclass. -/
structure ParsedMessage where
  role : String
  text : String
  thinking : Option String
  timestamp : String
  session_id : String
  deriving DecidableEq, Repr

/-- Python truthiness of the optional thinking string. -/
def truthyOpt : Option String → Bool
  | none => false
  | some t => t != ""

/-- `parse_new_messages` on the decoded lines past the checkpoint offset
(`now` stands for `_now_iso()`): keep only `type == "message"` records
with a `message` whose role is user/assistant, extract text/thinking, and
drop the record when the text is empty unless thinking capture is enabled
and thinking is non-empty.  Stored text is truncated to 8000 chars,
thinking to 16000. -/
def parse_new_messages (include_thinking : Bool) (now session_id : String) :
    List TLine → List ParsedMessage
  | [] => []
  | .malformed :: rest => parse_new_messages include_thinking now session_id rest
  | .entry etype hasMsg role content ts :: rest =>
    let tail := parse_new_messages include_thinking now session_id rest
    if etype != "message" || !hasMsg then tail
    else
      match role with
      | none => tail
      | some r =>
        if r != "user" && r != "assistant" then tail
        else if r == "toolResult" then tail  -- dead code in the source: user/assistant only here
        else
          let e := extract_text_and_thinking content
          if e.1 == "" && !(include_thinking && truthyOpt e.2) then tail
          else
            ⟨r, pyTake e.1 8000,
             if include_thinking && truthyOpt e.2 then e.2.map (pyTake · 16000) else none,
             (match ts with
              | some t => if t == "" then now else t
              | none => now),
             session_id⟩ :: tail

end CronCapture

/-! ## extract_facts.py — Fact-Extraction parsing and upload -/

namespace ExtractFacts

/-- One extracted atomic fact, with the dict fields
`parse_markdown_sections` sets. -/
structure Fact where
  text : String
  tags : List String
  importance : String
  source_type : String
  category : String
  deriving DecidableEq, Repr

/-- The fixed keyword→tag vocabulary of `extract_tags`. -/
def tag_mappings : List (String × String) :=
  [("preference", "preferences"), ("config", "configuration"),
   ("hardware", "hardware"), ("security", "security"), ("youtube", "youtube"),
   ("video", "video"), ("workflow", "workflow"), ("rule", "rules"),
   ("critical", "critical"), ("decision", "decisions"),
   ("research", "research"), ("process", "process"), ("step", "steps")]

/-- `extract_tags`: base tags plus one tag per keyword found in the
lower-cased text. -/
def extract_tags (text date_str : String) : List String :=
  ["atomic-fact", date_str] ++
    tag_mappings.filterMap fun kv =>
      if pyInStr kv.1 (pyLower text) then some kv.2 else none

/-- `para.replace('. ', '.\n').split('\n')`, each piece stripped, empties
dropped: the sentence splitting of long paragraphs. -/
def sentence_split (para : String) : List String :=
  (((pySplitOn (pyReplace para ". " ".\n") "\n")).map pyStrip).filter (· != "")

/-- The fact built for one paragraph or sentence fragment. -/
def para_fact (sect date frag : String) : Fact :=
  ⟨sect ++ ": " ++ pyTake frag 500, extract_tags frag date,
   if pyInStr "**" frag then "high" else "medium", "inferred", sect⟩

/-- `flush_section_content`: join accumulated lines, split on blank-line
paragraph boundaries, drop fragments shorter than 5 chars, and split
paragraphs longer than 300 chars into sentence facts (kept when longer
than 10 chars). -/
def flush_facts (sect date : String) (contentLines : List String) : List Fact :=
  if contentLines.isEmpty then []
  else
    let full_text := String.intercalate "\n" contentLines
    let paragraphs := ((pySplitOn full_text "\n\n").map pyStrip).filter (· != "")
    paragraphs.flatMap fun para =>
      if para.length < 5 then []
      else if 300 < para.length then
        (sentence_split para).filterMap fun sentence =>
          if 10 < sentence.length then some (para_fact sect date sentence) else none
      else [para_fact sect date para]

/-- The bullet-point rule: `fact_text = line[2:].strip()`, emitted when
longer than 3 chars. -/
def bullet_facts (sect date line : String) : List Fact :=
  let fact_text := pyStrip (pyDrop line 2)
  if 3 < fact_text.length then
    [⟨sect ++ ": " ++ pyTake fact_text 500, extract_tags fact_text date,
      if pyInStr "**" fact_text then "high" else "medium", "inferred", sect⟩]
  else []

/-- `re.match(r'^\d+\.\s', line)`: digits, a dot, then a whitespace. -/
def isNumberedLine (line : String) : Bool :=
  let ds := line.data.takeWhile Char.isDigit
  !ds.isEmpty &&
    (match line.data.drop ds.length with
     | '.' :: c :: _ => c.isWhitespace
     | _ => false)

/-- `re.sub(r'^\d+\.\s*', '', line)` on a line matching the numbered-list
pattern: drop the digits, the dot, and all following whitespace. -/
def strip_number_marker (line : String) : String :=
  let ds := line.data.takeWhile Char.isDigit
  match line.data.drop ds.length with
  | '.' :: rest => ⟨rest.dropWhile Char.isWhitespace⟩
  | _ => line

/-- The numbered-list rule, emitted when the stripped text is longer than
3 chars. -/
def numbered_facts (sect date line : String) : List Fact :=
  let fact_text := strip_number_marker line
  if 3 < fact_text.length then
    [⟨sect ++ ": " ++ pyTake fact_text 500, extract_tags fact_text date,
      if pyInStr "**" fact_text then "high" else "medium", "inferred", sect⟩]
  else []

/-- The characters excluded from a URL body: `[^\s<>"')\]]`. -/
def excludedUrlChar (c : Char) : Bool :=
  c.isWhitespace || c == '<' || c == '>' || c == Char.ofNat 34 ||
    c == Char.ofNat 39 || c == ')' || c == ']'

/-- Does the char list start with `https?://` followed by one allowed
character? -/
def matchesScheme (l : List Char) : Bool :=
  match l with
  | 'h' :: 't' :: 't' :: 'p' :: 's' :: ':' :: '/' :: '/' :: c :: _ => !excludedUrlChar c
  | 'h' :: 't' :: 't' :: 'p' :: ':' :: '/' :: '/' :: c :: _ => !excludedUrlChar c
  | _ => false

/-- `re.search(r'https?://[^\s<>"\')\]]+', line)` as a presence test. -/
def hasUrlFrom : List Char → Bool
  | [] => false
  | c :: rest => matchesScheme (c :: rest) || hasUrlFrom rest

def has_url (line : String) : Bool := hasUrlFrom line.data

/-- The URL rule's fact. -/
def url_fact (sect date line : String) : Fact :=
  ⟨sect ++ ": " ++ pyTake line 400, ["url", "link", "atomic-fact", date],
   "medium", "inferred", sect⟩

/-- The key-value rule's fact. -/
def kv_fact (sect date line : String) : Fact :=
  ⟨sect ++ ": " ++ pyTake line 400, extract_tags line date ++ ["key-value"],
   "medium", "inferred", sect⟩

/-- The bold / critical-rule fact. -/
def bold_fact (sect date line : String) : Fact :=
  ⟨sect ++ ": " ++ pyTake line 500, ["critical-rule", "high-priority", date],
   "high", "user", sect⟩

/-- The table-row rule: split on `|`, strip and drop empty cells, skip
pure separator rows. -/
def table_facts (sect date line : String) : List Fact :=
  let cells := ((pySplitOn line "|").map pyStrip).filter (· != "")
  if !cells.isEmpty &&
      !(cells.all fun cel => (pyReplace (pyReplace cel "-" "") ":" "") == "") then
    [⟨sect ++ " [Table]: " ++ pyTake (String.intercalate " | " cells) 400,
      ["table-row", "atomic-fact", date], "medium", "inferred", sect⟩]
  else []

/-- The parser state of `parse_markdown_sections`. -/
structure PState where
  facts : List Fact
  current_section : String
  content : List String
  in_code : Bool
  code_lines : List String
  code_lang : String
  deriving Repr

/-- Append the flushed accumulated content and reset it. -/
def flushState (date : String) (s : PState) : PState :=
  { s with facts := s.facts ++ flush_facts s.current_section date s.content,
           content := [] }

/-- One iteration of the line loop, rules checked in source order
(first match wins; the key-value rule falls through to later rules when
its inner key check fails). -/
def process_line (date : String) (s : PState) (i : Nat) (rawLine : String) : PState :=
  let line := pyStrip rawLine
  if pyStartsWith line "```" then
    if s.in_code then
      let s' :=
        if !s.code_lines.isEmpty then
          { s with facts := s.facts ++
              [⟨s.current_section ++ " [Code: " ++ s.code_lang ++ "]: " ++
                  pyTake (String.intercalate "\n" s.code_lines) 800,
                ["code-block", "atomic-fact", date, s.code_lang],
                "medium", "inferred", s.current_section⟩] }
        else s
      { s' with code_lines := [], code_lang := "", in_code := false }
    else
      let s' := flushState date s
      let lang := pyStrip (pyDrop line 3)
      { s' with in_code := true, code_lang := if lang == "" then "text" else lang }
  else if s.in_code then { s with code_lines := s.code_lines ++ [line] }
  else if line == "" then flushState date s
  else if pyStartsWith line "## " then
    let s' := flushState date s
    let sect := pyStrip (pyDrop line 3)
    { s' with current_section := sect,
              facts := s'.facts ++
                [⟨"Section: " ++ sect, ["section-header", "atomic-fact", date],
                  "medium", "inferred", sect⟩] }
  else if pyStartsWith line "# " && i == 0 then s
  else if pyStartsWith line "- " || pyStartsWith line "* " || pyStartsWith line "+ " then
    let s' := flushState date s
    { s' with facts := s'.facts ++ bullet_facts s'.current_section date line }
  else if isNumberedLine line then
    let s' := flushState date s
    { s' with facts := s'.facts ++ numbered_facts s'.current_section date line }
  else if has_url line && line.length < 300 then
    { s with facts := s.facts ++ [url_fact s.current_section date line] }
  else
    let kv_ok := pyInStr ":" line && line.length < 200 && !pyStartsWith line "**" &&
      (let key := pyStrip ((pySplitOn line ":").headD "")
       key != "" && key.length < 50 && !pyStartsWith key "#")
    if kv_ok then { s with facts := s.facts ++ [kv_fact s.current_section date line] }
    else if pyInStr "**" line then
      let s' := flushState date s
      { s' with facts := s'.facts ++ [bold_fact s'.current_section date line] }
    else if pyInStr "|" line && !pyStartsWith line "#" then
      { s with facts := s.facts ++ table_facts s.current_section date line }
    else if 2 < line.length then { s with content := s.content ++ [line] }
    else s

/-- `parse_markdown_sections`: fold the line loop over `content.split('\n')`
from the initial state, then flush the remaining accumulated content. -/
def parse_markdown_sections (content date : String) : List Fact :=
  let lines := pySplitOn content "\n"
  let s := lines.enum.foldl (fun st p => process_line date st p.1 p.2)
    ⟨[], "General", [], false, [], ""⟩
  (flushState date s).facts

/-- The payload `upload_facts_batch` builds for one fact (keys in source
order).  The fact dicts produced by the parser carry no `source`,
`confidence` or `verified` keys, so `dict.get` yields the defaults; they
carry no `user_id` key at all. -/
def fact_payload (fact : Fact) (date now : String) : Payload :=
  [("text", .s fact.text), ("date", .s date), ("tags", .arr fact.tags),
   ("importance", .s fact.importance), ("source", .s "fact-extraction"),
   ("source_type", .s fact.source_type), ("category", .s fact.category),
   ("confidence", .s "high"), ("verified", .b true), ("created_at", .s now),
   ("access_count", .n 0), ("last_accessed", .s now)]

/-- `range(0, total, batch_size)` chunking.  A zero step raises
`ValueError` in Python; modelled as no batches. -/
def chunksOf : Nat → List α → List (List α)
  | _, [] => []
  | 0, _ :: _ => []
  | n + 1, x :: xs => ((x :: xs).take (n + 1)) :: chunksOf (n + 1) (xs.drop n)
  termination_by _ l => l.length
  decreasing_by
    simp only [List.length_drop, List.length_cons]
    omega

/-- `upload_facts_batch`: per batch, request batch embeddings (`embedOk`
per text; a failed embedding is skipped and counted failed), then upsert
the batch's surviving points in one write (`upsertOk` per batch index).
Returns the updated store and the (uploaded, failed) counters. -/
def upload_facts_batch (embedOk : String → Bool) (upsertOk : Nat → Bool)
    (facts : List Fact) (date now : String) (batch_size : Nat) (st : Store) :
    Store × Nat × Nat :=
  (chunksOf batch_size facts).enum.foldl
    (fun acc bi =>
      let embedded : List MPoint := bi.2.filterMap fun f =>
        if embedOk f.text then
          some ⟨pyTake f.text 8192, fact_payload f date now⟩
        else none
      let fail1 := acc.2.2 + (bi.2.filter (fun f => !embedOk f.text)).length
      if embedded.isEmpty then (acc.1, acc.2.1, fail1)
      else if upsertOk bi.1 then (acc.1 ++ embedded, acc.2.1 + embedded.length, fail1)
      else (acc.1, acc.2.1, fail1 + embedded.length))
    (st, 0, 0)

end ExtractFacts

/-! ## search_mem.py — hybrid Retrieval -/

namespace SearchMem

/-- One search-result dict.  `score = none` stands for the string
`'exact'` carried by Redis matches; Qdrant matches carry a number.
Fields absent from a dict (Redis matches have no `ai_response` /
`conversation_id`; values fetched with bare `dict.get`) are `Option`s. -/
structure SResult where
  source : String
  score : Option ℚ
  turn : Option Nat
  role : Option String
  content : Option String
  ai_response : Option String
  timestamp : Option String
  conversation_id : Option String
  deriving DecidableEq, Repr

/-- Descending, stable sort key on the optional turn number (only applied
when no `none` key reaches the comparison — see `search_redis`). -/
def turnDescLe (a b : SResult) : Bool :=
  decide (b.turn.getD 0 ≤ a.turn.getD 0)

/-- `search_redis`: decode each buffer item (decode failures skipped),
keep items whose lower-cased content contains the lower-cased query, sort
by turn number descending and truncate to `limit`.  The match dicts store
`turn.get('turn')`, which is `None` for entries without a `turn` key;
sorting two or more matches with a `None` key raises `TypeError` in
Python 3, which the enclosing `try` turns into an empty result. -/
def search_redis (query _user_id : String) (items : List (Option CronBackup.Turn))
    (limit : Nat) : List SResult :=
  let decoded := items.filterMap id
  let found := (decoded.filter fun t =>
      pyInStr (pyLower query) (pyLower (t.content.getD ""))).map fun t =>
    (⟨"redis", none, t.turn, t.role, t.content, none, t.timestamp, none⟩ : SResult)
  if 2 ≤ found.length && found.any (fun m => m.turn.isNone) then []
  else (pySort turnDescLe found).take limit

/-- Which points the user-filtered Vector Store search may return: the
filter `must [{key: "user_id", match: {value: user_id}}]` matches exactly
the points whose payload carries that key with that value (a point
without the key never matches). -/
def qdrant_search_hits (points : List (MPoint × ℚ)) (user_id : String)
    (limit : Nat) : List (MPoint × ℚ) :=
  ((pySort (fun a b => decide (b.2 ≤ a.2))
      (points.filter fun pq =>
        decide (pq.1.payload.lookup "user_id" = some (JVal.s user_id)))).take limit)

/-- A payload string field, `None` when absent or non-string. -/
def payloadStr (p : Payload) (k : String) : Option String :=
  match p.lookup k with
  | some (JVal.s v) => some v
  | _ => none

/-- A payload nat field, `None` when absent or non-numeric. -/
def payloadNat (p : Payload) (k : String) : Option Nat :=
  match p.lookup k with
  | some (JVal.n v) => some v
  | _ => none

/-- `search_qdrant`: embed the query (`embedOk = false` models an
embedding failure, yielding `[]`), then the Vector Store similarity
search filtered to `user_id` (modelled by `qdrant_search_hits` with a
per-point similarity score), building one match dict per returned point.
The similarity scores are floats in the source; they are modelled as
rationals, and the 3-decimal display rounding (`round(score, 3)`) is
omitted as a monotone display transformation irrelevant to ordering. -/
def search_qdrant (embedOk : Bool) (points : List (MPoint × ℚ))
    (user_id : String) (limit : Nat) : List SResult :=
  if !embedOk then []
  else
    (qdrant_search_hits points user_id limit).map fun pq =>
      let um := (payloadStr pq.1.payload "user_message").getD ""
      { source := "qdrant", score := some pq.2,
        turn := payloadNat pq.1.payload "turn_number",
        role := payloadStr pq.1.payload "role",
        content := some (if um != "" then um
          else (payloadStr pq.1.payload "content").getD ""),
        ai_response := some ((payloadStr pq.1.payload "ai_response").getD ""),
        timestamp := payloadStr pq.1.payload "timestamp",
        conversation_id := payloadStr pq.1.payload "conversation_id" }

/-- Descending sort key on `x.get('score', 0)` (only ever applied to
Qdrant matches, whose scores are numbers). -/
def scoreDescLe (a b : SResult) : Bool :=
  decide (b.score.getD 0 ≤ a.score.getD 0)

/-- The display ordering of `main()`: Redis-tagged results first in their
returned order, then Qdrant-tagged results sorted by descending score. -/
def combined_display (all_results : List SResult) : List SResult :=
  let redis_sorted := all_results.filter fun r => r.source == "redis"
  let qdrant_sorted := pySort scoreDescLe (all_results.filter fun r => r.source == "qdrant")
  redis_sorted ++ qdrant_sorted

/-- `main()` in hybrid mode (neither `--redis-only` nor `--qdrant-only`):
collect both result lists and display them in the combined order. -/
def search_main (query user_id : String) (limit : Nat)
    (items : List (Option CronBackup.Turn)) (embedOk : Bool)
    (points : List (MPoint × ℚ)) : List SResult :=
  let redis_results := search_redis query user_id items limit
  let qdrant_results := search_qdrant embedOk points user_id limit
  combined_display (redis_results ++ qdrant_results)

end SearchMem

/-! ## Concrete example inputs used by witnesses and counterexamples -/

namespace Examples

/-- Buffer items for the hybrid-search scenario: two entries contain the
query (case-insensitively), one does not. -/
def itemsC8 : List (Option CronBackup.Turn) :=
  [some ⟨some "user", some "xx abc yy", some "T", some 3⟩,
   some ⟨some "assistant", some "ABCd", some "T", some 5⟩,
   some ⟨some "user", some "zzz", some "T", some 9⟩]

/-- Vector Store contents for the hybrid-search scenario: three points of
user `rob` (scores 1, 3, 2) and one point without a `user_id` key. -/
def pointsC8 : List (MPoint × ℚ) :=
  [(⟨"v1", [("user_id", .s "rob"), ("content", .s "m1")]⟩, (1 : ℚ)),
   (⟨"v2", [("user_id", .s "rob"), ("content", .s "m2")]⟩, (3 : ℚ)),
   (⟨"v3", [("user_id", .s "rob"), ("content", .s "m3")]⟩, (2 : ℚ)),
   (⟨"v4", [("content", .s "nouser")]⟩, (4 : ℚ))]

/-- The two Redis matches of the scenario, newest turn first. -/
def rsC8 : List SearchMem.SResult :=
  [⟨"redis", none, some 5, some "assistant", some "ABCd", none, some "T", none⟩,
   ⟨"redis", none, some 3, some "user", some "xx abc yy", none, some "T", none⟩]

/-- The three Qdrant matches of the scenario, by descending score. -/
def qsC8 : List SearchMem.SResult :=
  [⟨"qdrant", some (3 : ℚ), none, none, some "m2", some "", none, none⟩,
   ⟨"qdrant", some (2 : ℚ), none, none, some "m3", some "", none, none⟩,
   ⟨"qdrant", some (1 : ℚ), none, none, some "m1", some "", none, none⟩]

/-- The pairing scenario of the spec: `[user:"A", user:"C", assistant:"D"]`
in chronological order (A has no assistant reply before the next user
turn). -/
def turnsC2 : List CronBackup.Turn :=
  [⟨some "user", some "A", some "2026-01-01T00", none⟩,
   ⟨some "user", some "C", some "2026-01-02T00", none⟩,
   ⟨some "assistant", some "D", some "2026-01-03T00", none⟩]

/-- A buffer with no `user`-role entry at all. -/
def turnsC10 : List CronBackup.Turn :=
  [⟨some "assistant", some "D", some "2026-01-01T00", none⟩]

/-- A buffer with two exchanges: (A,B) and the unpaired trailing C. -/
def turnsC1 : List CronBackup.Turn :=
  [⟨some "user", some "A", some "2026-01-01T00", none⟩,
   ⟨some "assistant", some "B", some "2026-01-02T00", none⟩,
   ⟨some "user", some "C", some "2026-01-03T00", none⟩]

/-- An environment where the second attempted exchange fails to embed its
user point (all other calls succeed). -/
def envsC1 : Nat → AutoStore.CallEnv := fun k =>
  if k = 0 then .allOk else ⟨true, false, true, true, true, true, true⟩

/-- An environment where only the summary embedding fails. -/
def envC5 : AutoStore.CallEnv := ⟨true, true, true, true, true, false, true⟩

/-- One fully-successful store operation (for the dedup-invariant
witness). -/
def opC3 : AutoStore.StoreOp :=
  ⟨.allOk, "NOW", "TODAY", "rob", "hi", "yo", none, none, none, none, true⟩

/-- The state and result of one `store_conversation_turn` call under
`envC5` from an empty cache and store. -/
def outC5 : AutoStore.HashCache × Store × AutoStore.TurnResult :=
  match AutoStore.store_conversation_turn envC5 "NOW" "TODAY" "rob" "hi" "yo"
    none none none none true [] [] with
  | .ok o => o
  | .error _ => ([], [], ⟨false, false, false, false⟩)

end Examples

/-! ## Generic lemmas about the Python-style helpers -/

theorem mem_pyInsert (le : α → α → Bool) (x a : α) (l : List α) :
    a ∈ pyInsert le x l ↔ a = x ∨ a ∈ l := by
  induction l with
  | nil => simp [pyInsert]
  | cons y ys ih =>
    by_cases h : le y x
    · rw [pyInsert, if_pos h]
      simp only [List.mem_cons, ih]
      tauto
    · rw [pyInsert, if_neg h]
      simp only [List.mem_cons]

theorem mem_pySort (le : α → α → Bool) (a : α) (l : List α) :
    a ∈ pySort le l ↔ a ∈ l := by
  suffices h : ∀ acc, a ∈ l.foldl (fun acc x => pyInsert le x acc) acc ↔ a ∈ acc ∨ a ∈ l by
    have := h []
    simpa [pySort] using this
  induction l with
  | nil => simp
  | cons y ys ih =>
    intro acc
    simp only [List.foldl_cons, ih, mem_pyInsert, List.mem_cons]
    tauto

theorem pairwise_pyInsert (le : α → α → Bool)
    (total : ∀ a b, le a b = true ∨ le b a = true)
    (trans : ∀ a b c, le a b = true → le b c = true → le a c = true)
    (x : α) (l : List α) (h : l.Pairwise (fun a b => le a b = true)) :
    (pyInsert le x l).Pairwise (fun a b => le a b = true) := by
  induction l with
  | nil => simp [pyInsert]
  | cons y ys ih =>
    obtain ⟨hy, hys⟩ := List.pairwise_cons.1 h
    by_cases hle : le y x
    · simp only [pyInsert, hle, if_pos]
      refine List.Pairwise.cons ?_ (ih hys)
      intro b hb
      rcases (mem_pyInsert le x b ys).1 hb with rfl | hb
      · exact hle
      · exact hy b hb
    · simp only [pyInsert, hle, Bool.false_eq_true, if_neg, not_false_iff]
      have hxy : le x y = true := by
        rcases total x y with h' | h'
        · exact h'
        · exact absurd h' hle
      refine List.Pairwise.cons ?_ (List.Pairwise.cons hy hys)
      intro b hb
      rcases List.mem_cons.1 hb with rfl | hb
      · exact hxy
      · exact trans x y b hxy (hy b hb)

theorem pairwise_pySort (le : α → α → Bool)
    (total : ∀ a b, le a b = true ∨ le b a = true)
    (trans : ∀ a b c, le a b = true → le b c = true → le a c = true)
    (l : List α) : (pySort le l).Pairwise (fun a b => le a b = true) := by
  suffices h : ∀ acc, acc.Pairwise (fun a b => le a b = true) →
      (l.foldl (fun acc x => pyInsert le x acc) acc).Pairwise (fun a b => le a b = true) by
    exact h [] (by simp)
  induction l with
  | nil => intro acc hacc; simpa using hacc
  | cons y ys ih =>
    intro acc hacc
    exact ih _ (pairwise_pyInsert le total trans y acc hacc)

theorem pyTake_ne_empty {s : String} (h : s ≠ "") (n : Nat) (hn : 0 < n) :
    pyTake s n ≠ "" := by
  intro hcontra
  have hdata : s.data.take n = [] := congrArg String.data hcontra
  rcases List.take_eq_nil_iff.1 hdata with h0 | hnil
  · omega
  · apply h
    apply String.ext
    simpa using hnil

theorem length_pyTake (s : String) (n : Nat) :
    (pyTake s n).length = min n s.length := by
  have h : (pyTake s n).length = (s.data.take n).length := rfl
  rw [h, List.length_take]
  rfl

/-! ## Lemmas about Retrieval (search_mem.py) and Fact-Extraction upload -/

theorem search_redis_source (query uid : String)
    (items : List (Option CronBackup.Turn)) (limit : Nat)
    (r : SearchMem.SResult) (hr : r ∈ SearchMem.search_redis query uid items limit) :
    r.source = "redis" := by
  unfold SearchMem.search_redis at hr
  dsimp only at hr
  split at hr
  · exact absurd hr (List.not_mem_nil r)
  · have h1 := List.take_subset _ _ hr
    rw [mem_pySort] at h1
    obtain ⟨t, -, rfl⟩ := List.mem_map.1 h1
    rfl

theorem mem_qdrant_search_hits (points : List (MPoint × ℚ)) (uid : String)
    (limit : Nat) (pq : MPoint × ℚ)
    (h : pq ∈ SearchMem.qdrant_search_hits points uid limit) :
    pq ∈ points ∧ pq.1.payload.lookup "user_id" = some (JVal.s uid) := by
  unfold SearchMem.qdrant_search_hits at h
  have h1 := List.take_subset _ _ h
  rw [mem_pySort] at h1
  have h2 := List.mem_filter.1 h1
  exact ⟨h2.1, of_decide_eq_true h2.2⟩

theorem search_qdrant_source (embedOk : Bool) (points : List (MPoint × ℚ))
    (uid : String) (limit : Nat) (q : SearchMem.SResult)
    (hq : q ∈ SearchMem.search_qdrant embedOk points uid limit) :
    q.source = "qdrant" := by
  unfold SearchMem.search_qdrant at hq
  split at hq
  · exact absurd hq (List.not_mem_nil q)
  · obtain ⟨pq, -, rfl⟩ := List.mem_map.1 hq
    rfl

/-- Every point appended by `upload_facts_batch` carries a fact payload
(no `user_id` key). -/
theorem upload_facts_batch_mem (embedOk : String → Bool) (upsertOk : Nat → Bool)
    (facts : List ExtractFacts.Fact) (date now : String) (batch_size : Nat)
    (st : Store) (p : MPoint)
    (hp : p ∈ (ExtractFacts.upload_facts_batch embedOk upsertOk facts date now batch_size st).1) :
    p ∈ st ∨ p.payload.lookup "user_id" = none := by
  unfold ExtractFacts.upload_facts_batch at hp
  suffices h : ∀ (bs : List (Nat × List ExtractFacts.Fact)) (acc : Store × Nat × Nat),
      p ∈ (bs.foldl (fun acc bi =>
        let embedded : List MPoint := bi.2.filterMap fun f =>
          if embedOk f.text then
            some ⟨pyTake f.text 8192, ExtractFacts.fact_payload f date now⟩
          else none
        let fail1 := acc.2.2 + (bi.2.filter (fun f => !embedOk f.text)).length
        if embedded.isEmpty then (acc.1, acc.2.1, fail1)
        else if upsertOk bi.1 then (acc.1 ++ embedded, acc.2.1 + embedded.length, fail1)
        else (acc.1, acc.2.1, fail1 + embedded.length)) acc).1 →
      p ∈ acc.1 ∨ p.payload.lookup "user_id" = none by
    exact h _ (st, 0, 0) hp
  intro bs
  induction bs with
  | nil => intro acc h; exact Or.inl h
  | cons b rest ih =>
    intro acc h
    rw [List.foldl_cons] at h
    rcases ih _ h with hmem | hnone
    · dsimp only at hmem
      split at hmem
      · exact Or.inl hmem
      · split at hmem
        · rcases List.mem_append.1 hmem with h1 | h2
          · exact Or.inl h1
          · obtain ⟨f, -, hf⟩ := List.mem_filterMap.1 h2
            right
            split at hf
            · cases hf
              rfl
            · cases hf
        · exact Or.inl hmem
    · exact Or.inr hnone


/-! ## Lemmas about Promotion (cron_backup.py / auto_store.py) -/

theorem all_of_filter_length_eq {α : Type _} {p : α → Bool} {l : List α}
    (h : (l.filter p).length = l.length) : ∀ a ∈ l, p a = true :=
  List.countP_eq_length.1 (by rw [List.countP_eq_length_filter]; exact h)

theorem store_memory_point_stored (embedOk upsertOk : Bool)
    (user_id text speaker date_str conversation_id : String) (turn_number : Nat)
    (session_id : Option String) (tags : List String) (importance : String)
    (content_hash : Option String) (now : String) (st : Store) :
    (AutoStore.store_memory_point embedOk upsertOk user_id text speaker date_str
      conversation_id turn_number session_id tags importance content_hash now st).2 =
      (embedOk && upsertOk) := by
  unfold AutoStore.store_memory_point
  cases embedOk <;> cases upsertOk <;> rfl

theorem store_memory_point_length (embedOk upsertOk : Bool)
    (user_id text speaker date_str conversation_id : String) (turn_number : Nat)
    (session_id : Option String) (tags : List String) (importance : String)
    (content_hash : Option String) (now : String) (st : Store) :
    (AutoStore.store_memory_point embedOk upsertOk user_id text speaker date_str
      conversation_id turn_number session_id tags importance content_hash now st).1.length =
      st.length + (embedOk && upsertOk).toNat := by
  unfold AutoStore.store_memory_point
  cases embedOk <;> cases upsertOk <;> simp

/-- When `store_to_qdrant` reports success, every attempted exchange was
stored or recognized as a duplicate. -/
theorem store_to_qdrant_ok_all (envs : Nat → AutoStore.CallEnv)
    (now today : String) (turns : List CronBackup.Turn) (user_id : String)
    (st st' : Store) (results : List (Except String AutoStore.TurnResult))
    (hr : CronBackup.store_to_qdrant envs now today turns user_id st =
      (st', true, results)) :
    ∀ x ∈ results, CronBackup.storedOrSkipped x = true := by
  unfold CronBackup.store_to_qdrant at hr
  dsimp only at hr
  split at hr
  · simp only [Prod.mk.injEq] at hr
    obtain ⟨-, -, h3⟩ := hr
    subst h3
    intro x hx
    exact absurd hx (List.not_mem_nil x)
  · simp only [Prod.mk.injEq] at hr
    obtain ⟨-, h2, h3⟩ := hr
    subst h3
    rw [Bool.and_eq_true] at h2
    exact all_of_filter_length_eq (of_decide_eq_true h2.2)


/-! ## Lemmas about the payloads written by `store_conversation_turn` -/

theorem lookup_user_id_memory_point (user_id text speaker date_str conversation_id : String)
    (turn_number : Nat) (session_id : Option String) (tags : List String)
    (importance : String) (hh now : String) :
    (AutoStore.memory_point_payload user_id text speaker date_str conversation_id
      turn_number session_id tags importance (some hh) now).lookup "user_id" =
      some (JVal.s user_id) := rfl

theorem lookup_content_hash_memory_point (user_id text speaker date_str conversation_id : String)
    (turn_number : Nat) (session_id : Option String) (tags : List String)
    (importance : String) (hh now : String) :
    (AutoStore.memory_point_payload user_id text speaker date_str conversation_id
      turn_number session_id tags importance (some hh) now).lookup "content_hash" =
      some (JVal.s hh) := rfl

theorem lookup_source_type_memory_point (user_id text speaker date_str conversation_id : String)
    (turn_number : Nat) (session_id : Option String) (tags : List String)
    (importance : String) (hh now : String) :
    (AutoStore.memory_point_payload user_id text speaker date_str conversation_id
      turn_number session_id tags importance (some hh) now).lookup "source_type" =
      some (JVal.s (if speaker == "user" then "user" else "assistant")) := rfl

theorem lookup_user_id_summary (user_id summary_text date_str : String) (tags : List String)
    (importance conversation_id : String) (turn_number : Nat) (session_id : Option String)
    (content_hash user_message ai_response now : String) :
    (AutoStore.summary_payload user_id summary_text date_str tags importance
      conversation_id turn_number session_id content_hash user_message ai_response
      now).lookup "user_id" = some (JVal.s user_id) := rfl

theorem lookup_content_hash_summary (user_id summary_text date_str : String) (tags : List String)
    (importance conversation_id : String) (turn_number : Nat) (session_id : Option String)
    (content_hash user_message ai_response now : String) :
    (AutoStore.summary_payload user_id summary_text date_str tags importance
      conversation_id turn_number session_id content_hash user_message ai_response
      now).lookup "content_hash" = some (JVal.s content_hash) := rfl

theorem lookup_source_type_summary (user_id summary_text date_str : String) (tags : List String)
    (importance conversation_id : String) (turn_number : Nat) (session_id : Option String)
    (content_hash user_message ai_response now : String) :
    (AutoStore.summary_payload user_id summary_text date_str tags importance
      conversation_id turn_number session_id content_hash user_message ai_response
      now).lookup "source_type" = some (JVal.s "system") := rfl

theorem matchesDup_memory_point (uid' h' : String) (v : String)
    (user_id text speaker date_str conversation_id : String) (turn_number : Nat)
    (session_id : Option String) (tags : List String) (importance : String)
    (hh now : String) :
    AutoStore.matchesDup uid' h' ⟨v, AutoStore.memory_point_payload user_id text
      speaker date_str conversation_id turn_number session_id tags importance
      (some hh) now⟩ = ((user_id == uid') && (hh == h')) := by
  unfold AutoStore.matchesDup
  rw [show (AutoStore.memory_point_payload user_id text speaker date_str
      conversation_id turn_number session_id tags importance (some hh)
      now).lookup "user_id" = some (JVal.s user_id) from rfl,
    show (AutoStore.memory_point_payload user_id text speaker date_str
      conversation_id turn_number session_id tags importance (some hh)
      now).lookup "content_hash" = some (JVal.s hh) from rfl]
  by_cases e1 : user_id = uid' <;> by_cases e2 : hh = h' <;> simp [e1, e2]

theorem matchesDup_summary_point (uid' h' : String) (v : String)
    (user_id summary_text date_str : String) (tags : List String)
    (importance conversation_id : String) (turn_number : Nat)
    (session_id : Option String) (content_hash user_message ai_response now : String) :
    AutoStore.matchesDup uid' h' ⟨v, AutoStore.summary_payload user_id summary_text
      date_str tags importance conversation_id turn_number session_id content_hash
      user_message ai_response now⟩ = ((user_id == uid') && (content_hash == h')) := by
  unfold AutoStore.matchesDup
  rw [show (AutoStore.summary_payload user_id summary_text date_str tags importance
      conversation_id turn_number session_id content_hash user_message ai_response
      now).lookup "user_id" = some (JVal.s user_id) from rfl,
    show (AutoStore.summary_payload user_id summary_text date_str tags importance
      conversation_id turn_number session_id content_hash user_message ai_response
      now).lookup "content_hash" = some (JVal.s content_hash) from rfl]
  by_cases e1 : user_id = uid' <;> by_cases e2 : content_hash = h' <;> simp [e1, e2]

theorem store_memory_point_fst (embedOk upsertOk : Bool)
    (user_id text speaker date_str conversation_id : String) (turn_number : Nat)
    (session_id : Option String) (tags : List String) (importance : String)
    (content_hash : Option String) (now : String) (st : Store) :
    (AutoStore.store_memory_point embedOk upsertOk user_id text speaker date_str
      conversation_id turn_number session_id tags importance content_hash now st).1 =
      st ++ (if embedOk && upsertOk then
        [⟨pyTake text 8192, AutoStore.memory_point_payload user_id text speaker
          date_str conversation_id turn_number session_id tags importance
          content_hash now⟩] else []) := by
  cases embedOk <;> cases upsertOk <;> simp [AutoStore.store_memory_point]

theorem append_ite {α : Type _} (b : Bool) (l : List α) (x : α) :
    (if b then l ++ [x] else l) = l ++ (if b then [x] else []) := by
  cases b <;> simp

theorem append_ite_assoc {α : Type _} (b : Bool) (st A B : List α) (x : α) :
    (if b then st ++ (A ++ (B ++ [x])) else st ++ (A ++ B)) =
      st ++ (A ++ (B ++ (if b then [x] else []))) := by
  cases b <;> simp


/-- One non-duplicate `store_conversation_turn` call appends up to three
points — user, assistant, summary — each guarded by its own embed+upsert
flags; all three carry the call's `(user_id, content_hash)` pair and
their respective `source_type`s, and the cache gains the hash exactly
when both the user and the assistant point were written. -/
theorem store_conversation_turn_nondup_spec (env : AutoStore.CallEnv)
    (now today user_id um ar : String) (conv : Option String) (turn : Option Nat)
    (sid : Option String) (date : Option String) (skip : Bool)
    (c : AutoStore.HashCache) (st : Store)
    (huid : user_id ≠ "")
    (hnd : (skip && AutoStore.is_duplicate env.dedupQueryOk st c user_id um ar) = false) :
    ∃ p1 p2 p3 : MPoint,
      AutoStore.store_conversation_turn env now today user_id um ar conv turn sid
        date skip c st =
        .ok ((if (env.userEmbedOk && env.userUpsertOk) && (env.aiEmbedOk && env.aiUpsertOk)
                then AutoStore.mark_stored um ar c else c),
             st ++ ((if env.userEmbedOk && env.userUpsertOk then [p1] else []) ++
               ((if env.aiEmbedOk && env.aiUpsertOk then [p2] else []) ++
                (if env.sumEmbedOk && env.sumUpsertOk then [p3] else []))),
             ⟨env.userEmbedOk && env.userUpsertOk, env.aiEmbedOk && env.aiUpsertOk,
              (env.userEmbedOk && env.userUpsertOk) && (env.aiEmbedOk && env.aiUpsertOk),
              false⟩) ∧
      (∀ uid' h', AutoStore.matchesDup uid' h' p1 =
        ((user_id == uid') && (AutoStore.get_content_hash um ar == h'))) ∧
      (∀ uid' h', AutoStore.matchesDup uid' h' p2 =
        ((user_id == uid') && (AutoStore.get_content_hash um ar == h'))) ∧
      (∀ uid' h', AutoStore.matchesDup uid' h' p3 =
        ((user_id == uid') && (AutoStore.get_content_hash um ar == h'))) ∧
      p1.payload.lookup "source_type" = some (JVal.s "user") ∧
      p2.payload.lookup "source_type" = some (JVal.s "assistant") ∧
      p3.payload.lookup "source_type" = some (JVal.s "system") := by
  unfold AutoStore.store_conversation_turn
  rw [if_neg (by simpa using huid)]
  dsimp only
  rw [if_neg (by rw [hnd]; exact Bool.false_ne_true)]
  simp only [store_memory_point_fst, store_memory_point_stored,
    List.append_assoc, append_ite_assoc]
  refine ⟨_, _, _, rfl, ?_, ?_, ?_, ?_, ?_, ?_⟩
  · intro uid' h'
    apply matchesDup_memory_point
  · intro uid' h'
    apply matchesDup_memory_point
  · intro uid' h'
    apply matchesDup_summary_point
  · rfl
  · rfl
  · rfl


theorem typedDupCount_append (a b : Store) (uid h ty : String) :
    AutoStore.typedDupCount (a ++ b) uid h ty =
      AutoStore.typedDupCount a uid h ty + AutoStore.typedDupCount b uid h ty := by
  simp [AutoStore.typedDupCount, List.filter_append]

theorem nonSystemDupCount_append (a b : Store) (uid h : String) :
    AutoStore.nonSystemDupCount (a ++ b) uid h =
      AutoStore.nonSystemDupCount a uid h + AutoStore.nonSystemDupCount b uid h := by
  simp [AutoStore.nonSystemDupCount, List.filter_append]

theorem typedDupCount_zero_of_no_match (l : Store) (uid h ty : String)
    (hl : ∀ p ∈ l, AutoStore.matchesDup uid h p = false) :
    AutoStore.typedDupCount l uid h ty = 0 := by
  unfold AutoStore.typedDupCount
  rw [List.length_eq_zero]
  exact List.filter_eq_nil_iff.mpr fun p hp => by simp [hl p hp]

theorem nonSystemDupCount_zero_of_no_match (l : Store) (uid h : String)
    (hl : ∀ p ∈ l, AutoStore.matchesDup uid h p = false) :
    AutoStore.nonSystemDupCount l uid h = 0 := by
  unfold AutoStore.nonSystemDupCount
  rw [List.length_eq_zero]
  exact List.filter_eq_nil_iff.mpr fun p hp => by simp [hl p hp]

theorem typedDupCount_ite_le_one (b : Bool) (p : MPoint) (uid h ty : String) :
    AutoStore.typedDupCount (if b then [p] else []) uid h ty ≤ 1 := by
  cases b
  · simp [AutoStore.typedDupCount]
  · exact le_trans (List.length_filter_le _ _) (by simp)

theorem nonSystemDupCount_ite_le_one (b : Bool) (p : MPoint) (uid h : String) :
    AutoStore.nonSystemDupCount (if b then [p] else []) uid h ≤ 1 := by
  cases b
  · simp [AutoStore.nonSystemDupCount]
  · exact le_trans (List.length_filter_le _ _) (by simp)

theorem typedDupCount_ite_zero_of_type_ne (b : Bool) (p : MPoint) (uid h ty ty' : String)
    (hp : p.payload.lookup "source_type" = some (JVal.s ty')) (hne : ty' ≠ ty) :
    AutoStore.typedDupCount (if b then [p] else []) uid h ty = 0 := by
  cases b
  · simp [AutoStore.typedDupCount]
  · unfold AutoStore.typedDupCount
    rw [List.length_eq_zero]
    refine List.filter_eq_nil_iff.mpr fun q hq => ?_
    have hq' : q = p := by simpa using hq
    subst hq'
    simp [hp, hne]

theorem nonSystemDupCount_ite_zero_of_system (b : Bool) (p : MPoint) (uid h : String)
    (hp : p.payload.lookup "source_type" = some (JVal.s "system")) :
    AutoStore.nonSystemDupCount (if b then [p] else []) uid h = 0 := by
  cases b
  · simp [AutoStore.nonSystemDupCount]
  · unfold AutoStore.nonSystemDupCount
    rw [List.length_eq_zero]
    refine List.filter_eq_nil_iff.mpr fun q hq => ?_
    have hq' : q = p := by simpa using hq
    subst hq'
    simp [hp]


/-- The dedup invariant — at most one user-typed, one assistant-typed and
two non-system points per `(user_id, content_hash)` — is preserved by any
sequence of `store_conversation_turn` operations whose dedup scroll is
reachable and whose duplicate skipping is left at its default. -/
theorem run_store_ops_inv (ops : List AutoStore.StoreOp)
    (hops : ∀ op ∈ ops, op.env.dedupQueryOk = true ∧ op.skip_if_duplicate = true)
    (c : AutoStore.HashCache) (st : Store)
    (hinv : ∀ uid h, AutoStore.typedDupCount st uid h "user" ≤ 1 ∧
      AutoStore.typedDupCount st uid h "assistant" ≤ 1 ∧
      AutoStore.nonSystemDupCount st uid h ≤ 2) :
    ∀ uid h,
      AutoStore.typedDupCount (AutoStore.run_store_ops ops (c, st)).2 uid h "user" ≤ 1 ∧
      AutoStore.typedDupCount (AutoStore.run_store_ops ops (c, st)).2 uid h "assistant" ≤ 1 ∧
      AutoStore.nonSystemDupCount (AutoStore.run_store_ops ops (c, st)).2 uid h ≤ 2 := by
  induction ops generalizing c st with
  | nil => simpa [AutoStore.run_store_ops] using hinv
  | cons op rest ih =>
    have hop := hops op (List.mem_cons_self op rest)
    have hrest : ∀ o ∈ rest, o.env.dedupQueryOk = true ∧ o.skip_if_duplicate = true :=
      fun o ho => hops o (List.mem_cons_of_mem op ho)
    rw [AutoStore.run_store_ops]
    by_cases huid : op.user_id = ""
    · have herr : AutoStore.store_conversation_turn op.env op.now op.today op.user_id
          op.user_message op.ai_response op.conversation_id op.turn_number
          op.session_id op.date_str op.skip_if_duplicate c st =
          .error "user_id is required for Mem0-style storage" := by
        unfold AutoStore.store_conversation_turn
        rw [if_pos (by simp [huid])]
      rw [herr]
      exact ih hrest c st hinv
    · by_cases hdup : (op.skip_if_duplicate && AutoStore.is_duplicate op.env.dedupQueryOk
          st c op.user_id op.user_message op.ai_response) = true
      · have hskip : AutoStore.store_conversation_turn op.env op.now op.today op.user_id
            op.user_message op.ai_response op.conversation_id op.turn_number
            op.session_id op.date_str op.skip_if_duplicate c st =
            .ok (c, st, ⟨false, false, true, true⟩) := by
          unfold AutoStore.store_conversation_turn
          rw [if_neg (by simpa using huid)]
          dsimp only
          rw [if_pos hdup]
        rw [hskip]
        exact ih hrest c st hinv
      · obtain ⟨p1, p2, p3, heq, hm1, hm2, hm3, ht1, ht2, ht3⟩ :=
          store_conversation_turn_nondup_spec op.env op.now op.today op.user_id
            op.user_message op.ai_response op.conversation_id op.turn_number
            op.session_id op.date_str op.skip_if_duplicate c st huid
            (by simpa using hdup)
        rw [heq]
        dsimp only
        apply ih hrest
        have hdup' : AutoStore.is_duplicate op.env.dedupQueryOk st c op.user_id
            op.user_message op.ai_response = false := by
          have h' := (by simpa using hdup :
            (op.skip_if_duplicate && AutoStore.is_duplicate op.env.dedupQueryOk st c
              op.user_id op.user_message op.ai_response) = false)
          rw [hop.2] at h'
          simpa using h'
        have hany : st.any (AutoStore.matchesDup op.user_id
            (AutoStore.get_content_hash op.user_message op.ai_response)) = false := by
          unfold AutoStore.is_duplicate at hdup'
          rw [hop.1] at hdup'
          simp only [Bool.or_eq_false_iff, Bool.and_eq_false_iff] at hdup'
          rcases hdup'.2 with h' | h'
          · cases h'
          · exact h'
        have hall : ∀ p ∈ st, AutoStore.matchesDup op.user_id
            (AutoStore.get_content_hash op.user_message op.ai_response) p = false := by
          intro p hp
          have := List.any_eq_false.mp hany p hp
          simpa using this
        intro uid h
        rw [typedDupCount_append, typedDupCount_append, typedDupCount_append,
          typedDupCount_append, typedDupCount_append, typedDupCount_append,
          nonSystemDupCount_append, nonSystemDupCount_append, nonSystemDupCount_append]
        by_cases hpair : op.user_id = uid ∧
            AutoStore.get_content_hash op.user_message op.ai_response = h
        · obtain ⟨he1, he2⟩ := hpair
          subst he1
          subst he2
          have hz0 : ∀ ty, AutoStore.typedDupCount st op.user_id
              (AutoStore.get_content_hash op.user_message op.ai_response) ty = 0 :=
            fun ty => typedDupCount_zero_of_no_match st _ _ ty hall
          have hz0n : AutoStore.nonSystemDupCount st op.user_id
              (AutoStore.get_content_hash op.user_message op.ai_response) = 0 :=
            nonSystemDupCount_zero_of_no_match st _ _ hall
          refine ⟨?_, ?_, ?_⟩
          · rw [hz0]
            have hA := typedDupCount_ite_le_one (op.env.userEmbedOk && op.env.userUpsertOk)
              p1 op.user_id (AutoStore.get_content_hash op.user_message op.ai_response) "user"
            have hB := typedDupCount_ite_zero_of_type_ne
              (op.env.aiEmbedOk && op.env.aiUpsertOk) p2 op.user_id
              (AutoStore.get_content_hash op.user_message op.ai_response)
              "user" "assistant" ht2 (by decide)
            have hC := typedDupCount_ite_zero_of_type_ne
              (op.env.sumEmbedOk && op.env.sumUpsertOk) p3 op.user_id
              (AutoStore.get_content_hash op.user_message op.ai_response)
              "user" "system" ht3 (by decide)
            omega
          · rw [hz0]
            have hA := typedDupCount_ite_zero_of_type_ne
              (op.env.userEmbedOk && op.env.userUpsertOk) p1 op.user_id
              (AutoStore.get_content_hash op.user_message op.ai_response)
              "assistant" "user" ht1 (by decide)
            have hB := typedDupCount_ite_le_one (op.env.aiEmbedOk && op.env.aiUpsertOk)
              p2 op.user_id (AutoStore.get_content_hash op.user_message op.ai_response)
              "assistant"
            have hC := typedDupCount_ite_zero_of_type_ne
              (op.env.sumEmbedOk && op.env.sumUpsertOk) p3 op.user_id
              (AutoStore.get_content_hash op.user_message op.ai_response)
              "assistant" "system" ht3 (by decide)
            omega
          · rw [hz0n]
            have hA := nonSystemDupCount_ite_le_one
              (op.env.userEmbedOk && op.env.userUpsertOk) p1 op.user_id
              (AutoStore.get_content_hash op.user_message op.ai_response)
            have hB := nonSystemDupCount_ite_le_one
              (op.env.aiEmbedOk && op.env.aiUpsertOk) p2 op.user_id
              (AutoStore.get_content_hash op.user_message op.ai_response)
            have hC := nonSystemDupCount_ite_zero_of_system
              (op.env.sumEmbedOk && op.env.sumUpsertOk) p3 op.user_id
              (AutoStore.get_content_hash op.user_message op.ai_response) ht3
            omega
        · have hbfalse : ((op.user_id == uid) &&
              (AutoStore.get_content_hash op.user_message op.ai_response == h)) = false := by
            by_cases e1 : op.user_id = uid
            · by_cases e2 : AutoStore.get_content_hash op.user_message op.ai_response = h
              · exact absurd ⟨e1, e2⟩ hpair
              · simp [e2]
            · simp [e1]
          have hpart : ∀ (b : Bool) (p : MPoint),
              (∀ uid' h', AutoStore.matchesDup uid' h' p =
                ((op.user_id == uid') &&
                  (AutoStore.get_content_hash op.user_message op.ai_response == h'))) →
              ∀ q ∈ (if b then [p] else []), AutoStore.matchesDup uid h q = false := by
            intro b p hm q hq
            split at hq
            · have hq' : q = p := by simpa using hq
              subst hq'
              rw [hm]
              exact hbfalse
            · cases hq
          have hA := hpart (op.env.userEmbedOk && op.env.userUpsertOk) p1 hm1
          have hB := hpart (op.env.aiEmbedOk && op.env.aiUpsertOk) p2 hm2
          have hC := hpart (op.env.sumEmbedOk && op.env.sumUpsertOk) p3 hm3
          obtain ⟨i1, i2, i3⟩ := hinv uid h
          refine ⟨?_, ?_, ?_⟩
          · rw [typedDupCount_zero_of_no_match _ _ _ _ hA,
              typedDupCount_zero_of_no_match _ _ _ _ hB,
              typedDupCount_zero_of_no_match _ _ _ _ hC]
            omega
          · rw [typedDupCount_zero_of_no_match _ _ _ _ hA,
              typedDupCount_zero_of_no_match _ _ _ _ hB,
              typedDupCount_zero_of_no_match _ _ _ _ hC]
            omega
          · rw [nonSystemDupCount_zero_of_no_match _ _ _ hA,
              nonSystemDupCount_zero_of_no_match _ _ _ hB,
              nonSystemDupCount_zero_of_no_match _ _ _ hC]
            omega


/-- A hash found in `mark_stored`'s result was either just marked or was
already in the cache. -/
theorem contains_mark_stored (um ar hq : String) (c : AutoStore.HashCache)
    (hcon : (AutoStore.mark_stored um ar c).contains hq = true) :
    hq = AutoStore.get_content_hash um ar ∨ c.contains hq = true := by
  unfold AutoStore.mark_stored at hcon
  dsimp only at hcon
  split at hcon
  · split at hcon
    · simp at hcon
    · exact Or.inr hcon
  · split at hcon
    · simp at hcon
    · rw [List.contains_cons] at hcon
      rcases Bool.or_eq_true_iff.1 hcon with h' | h'
      · exact Or.inl (by simpa using h')
      · exact Or.inr h'

/-- One attempted exchange per `user`-role entry. -/
theorem pair_ups_length (l : List CronBackup.Turn) :
    (CronBackup.pair_ups l).length =
      (l.filter fun t => t.role.getD "" == "user").length := by
  induction l with
  | nil => rfl
  | cons t rest ih =>
    rw [CronBackup.pair_ups]
    cases hrole : (t.role.getD "" == "user") with
    | false =>
      rw [if_pos (by simpa using hrole), List.filter_cons, if_neg (by simpa using hrole)]
      exact ih
    | true =>
      rw [if_neg (by simpa using hrole), List.filter_cons, if_pos (by simpa using hrole)]
      simpa using ih


/-- Under an all-successful environment, the backup loop stores every
attempted exchange: it appends exactly three points per user turn, every
attempt reports success, and afterwards the store answers the dedup
scroll positively for every attempted exchange's hash. -/
theorem backupLoop_allOk (now today uid : String) (huid : uid ≠ "") :
    ∀ (l : List CronBackup.Turn) (i k : Nat) (c : AutoStore.HashCache) (st : Store),
    ((CronBackup.pair_ups l).map
      (fun pr => AutoStore.get_content_hash pr.1 pr.2)).Nodup →
    (∀ pr ∈ CronBackup.pair_ups l,
      c.contains (AutoStore.get_content_hash pr.1 pr.2) = false) →
    (∀ pr ∈ CronBackup.pair_ups l,
      st.any (AutoStore.matchesDup uid (AutoStore.get_content_hash pr.1 pr.2)) = false) →
    ∃ (cx : AutoStore.HashCache) (ext : Store),
      CronBackup.backupLoop (fun _ => AutoStore.CallEnv.allOk) now today uid l i k c st =
        (cx, st ++ ext,
         (CronBackup.pair_ups l).map (fun _ => .ok ⟨true, true, true, false⟩)) ∧
      ext.length = 3 * (CronBackup.pair_ups l).length ∧
      (∀ pr ∈ CronBackup.pair_ups l,
        (st ++ ext).any (AutoStore.matchesDup uid
          (AutoStore.get_content_hash pr.1 pr.2)) = true) := by
  intro l
  induction l with
  | nil =>
    intro i k c st _ _ _
    refine ⟨c, [], ?_, by simp [CronBackup.pair_ups], by simp [CronBackup.pair_ups]⟩
    rw [CronBackup.backupLoop, List.append_nil]
    rfl
  | cons t rest ih =>
    intro i k c st hnodup hc hst
    cases hrole : (t.role.getD "" != "user") with
    | true =>
      have hpair : CronBackup.pair_ups (t :: rest) = CronBackup.pair_ups rest := by
        rw [CronBackup.pair_ups, if_pos hrole]
      rw [CronBackup.backupLoop, if_pos hrole, hpair]
      rw [hpair] at hnodup hc hst
      exact ih (i + 1) k c st hnodup hc hst
    | false =>
      have hpair : CronBackup.pair_ups (t :: rest) =
          (t.content.getD "", CronBackup.find_next_assistant rest) ::
            CronBackup.pair_ups rest := by
        rw [CronBackup.pair_ups, if_neg (by simp [hrole])]
      have hhead : (t.content.getD "", CronBackup.find_next_assistant rest) ∈
          CronBackup.pair_ups (t :: rest) := by
        rw [hpair]
        exact List.mem_cons_self _ _
      have hc0 := hc _ hhead
      have hst0 := hst _ hhead
      have hdup : AutoStore.is_duplicate true st c uid (t.content.getD "")
          (CronBackup.find_next_assistant rest) = false := by
        unfold AutoStore.is_duplicate
        dsimp only
        rw [hc0, hst0]
        rfl
      obtain ⟨p1, p2, p3, heq, hm1, hm2, hm3, ht1, ht2, ht3⟩ :=
        store_conversation_turn_nondup_spec AutoStore.CallEnv.allOk now today uid
          (t.content.getD "") (CronBackup.find_next_assistant rest)
          (some ("mem-buffer-" ++ pyTake (t.timestamp.getD "unknown") 10))
          (some (t.turn.getD i)) none none true c st huid (by simp [hdup, AutoStore.CallEnv.allOk])
      have heq2 : AutoStore.store_conversation_turn AutoStore.CallEnv.allOk now today uid
          (t.content.getD "") (CronBackup.find_next_assistant rest)
          (some ("mem-buffer-" ++ pyTake (t.timestamp.getD "unknown") 10))
          (some (t.turn.getD i)) none none true c st =
          .ok (AutoStore.mark_stored (t.content.getD "")
              (CronBackup.find_next_assistant rest) c,
            st ++ ([p1] ++ ([p2] ++ [p3])), ⟨true, true, true, false⟩) := by
        rw [heq]
        rfl
      rw [hpair] at hnodup
      rw [List.map_cons] at hnodup
      obtain ⟨hnotin, hnodup2⟩ := List.nodup_cons.1 hnodup
      have hc2 : ∀ pr ∈ CronBackup.pair_ups rest,
          (AutoStore.mark_stored (t.content.getD "")
            (CronBackup.find_next_assistant rest) c).contains
            (AutoStore.get_content_hash pr.1 pr.2) = false := by
        intro pr hpr
        cases hcm : (AutoStore.mark_stored (t.content.getD "")
            (CronBackup.find_next_assistant rest) c).contains
            (AutoStore.get_content_hash pr.1 pr.2) with
        | false => rfl
        | true =>
          exfalso
          rcases contains_mark_stored _ _ _ _ hcm with he | he
          · exact hnotin (he ▸ List.mem_map_of_mem _ hpr)
          · have hcc := hc pr (by rw [hpair]; exact List.mem_cons_of_mem _ hpr)
            rw [hcc] at he
            exact Bool.false_ne_true he
      have hst2 : ∀ pr ∈ CronBackup.pair_ups rest,
          (st ++ ([p1] ++ ([p2] ++ [p3]))).any (AutoStore.matchesDup uid
            (AutoStore.get_content_hash pr.1 pr.2)) = false := by
        intro pr hpr
        have hne : AutoStore.get_content_hash (t.content.getD "")
            (CronBackup.find_next_assistant rest) ≠
            AutoStore.get_content_hash pr.1 pr.2 := by
          intro he
          exact hnotin (by rw [he]; exact List.mem_map_of_mem _ hpr)
        rw [List.any_append, Bool.or_eq_false_iff]
        constructor
        · exact hst pr (by rw [hpair]; exact List.mem_cons_of_mem _ hpr)
        · simp [hm1, hm2, hm3, hne]
      obtain ⟨cx, ext, hres, hlen, hmem⟩ :=
        ih (i + 1) (k + 1)
          (AutoStore.mark_stored (t.content.getD "")
            (CronBackup.find_next_assistant rest) c)
          (st ++ ([p1] ++ ([p2] ++ [p3]))) hnodup2 hc2 hst2
      rw [CronBackup.backupLoop, if_neg (by simp [hrole])]
      dsimp only
      rw [heq2]
      dsimp only
      rw [hres]
      refine ⟨cx, ([p1] ++ ([p2] ++ [p3])) ++ ext, ?_, ?_, ?_⟩
      · rw [hpair, List.map_cons, List.append_assoc]
      · rw [hpair]
        simp only [List.length_append, List.length_cons, List.length_nil]
        omega
      · intro pr hpr
        rw [hpair] at hpr
        rcases List.mem_cons.1 hpr with hprh | hpr2
        · subst hprh
          apply List.any_eq_true.mpr
          refine ⟨p1, by simp, ?_⟩
          rw [hm1]
          simp
        · have hmm := hmem pr hpr2
          rw [← List.append_assoc]
          exact hmm

/-- When the store already answers the dedup scroll positively for every
attempted exchange and the scroll is reachable, the backup loop skips
every exchange: the cache and store come back unchanged and every attempt
reports skipped. -/
theorem backupLoop_skips (envs : Nat → AutoStore.CallEnv) (now today uid : String)
    (huid : uid ≠ "") (hdq : ∀ k, (envs k).dedupQueryOk = true) :
    ∀ (l : List CronBackup.Turn) (i k : Nat) (c : AutoStore.HashCache) (st : Store),
    (∀ pr ∈ CronBackup.pair_ups l,
      st.any (AutoStore.matchesDup uid (AutoStore.get_content_hash pr.1 pr.2)) = true) →
    CronBackup.backupLoop envs now today uid l i k c st =
      (c, st, (CronBackup.pair_ups l).map
        (fun _ => .ok ⟨false, false, true, true⟩)) := by
  intro l
  induction l with
  | nil =>
    intro i k c st _
    rw [CronBackup.backupLoop]
    rfl
  | cons t rest ih =>
    intro i k c st hst
    cases hrole : (t.role.getD "" != "user") with
    | true =>
      have hpair : CronBackup.pair_ups (t :: rest) = CronBackup.pair_ups rest := by
        rw [CronBackup.pair_ups, if_pos hrole]
      rw [CronBackup.backupLoop, if_pos hrole, hpair]
      rw [hpair] at hst
      exact ih (i + 1) k c st hst
    | false =>
      have hpair : CronBackup.pair_ups (t :: rest) =
          (t.content.getD "", CronBackup.find_next_assistant rest) ::
            CronBackup.pair_ups rest := by
        rw [CronBackup.pair_ups, if_neg (by simp [hrole])]
      have hhead := hst _ (by rw [hpair]; exact List.mem_cons_self _ _)
      have hdup : AutoStore.is_duplicate (envs k).dedupQueryOk st c uid
          (t.content.getD "") (CronBackup.find_next_assistant rest) = true := by
        unfold AutoStore.is_duplicate
        dsimp only
        rw [hdq k, hhead]
        simp
      have hskip : AutoStore.store_conversation_turn (envs k) now today uid
          (t.content.getD "") (CronBackup.find_next_assistant rest)
          (some ("mem-buffer-" ++ pyTake (t.timestamp.getD "unknown") 10))
          (some (t.turn.getD i)) none none true c st =
          .ok (c, st, ⟨false, false, true, true⟩) := by
        unfold AutoStore.store_conversation_turn
        rw [if_neg (by simpa using huid)]
        dsimp only
        rw [if_pos (by rw [hdup]; rfl)]
      rw [CronBackup.backupLoop, if_neg (by simp [hrole])]
      dsimp only
      rw [hskip]
      dsimp only
      rw [ih (i + 1) (k + 1) c st
        (fun pr hpr => hst pr (by rw [hpair]; exact List.mem_cons_of_mem _ hpr))]
      rw [hpair, List.map_cons]

/-! ## Claim theorems -/

/-- C8: in hybrid search output, every buffer (redis-origin) match is
listed before every vector (qdrant-origin) match, and the vector matches
are listed in descending order of similarity score: the displayed list is
exactly the Redis matches followed by the score-sorted Qdrant matches. -/
theorem C8_hybrid_output_order (query user_id : String) (limit : Nat)
    (items : List (Option CronBackup.Turn)) (embedOk : Bool)
    (points : List (MPoint × ℚ)) (rs qs : List SearchMem.SResult)
    (hr : rs = SearchMem.search_redis query user_id items limit)
    (hq : qs = SearchMem.search_qdrant embedOk points user_id limit) :
    SearchMem.search_main query user_id limit items embedOk points =
      rs ++ pySort SearchMem.scoreDescLe qs ∧
    (∀ r ∈ rs, r.source = "redis") ∧
    (∀ q ∈ pySort SearchMem.scoreDescLe qs, q.source = "qdrant") ∧
    (pySort SearchMem.scoreDescLe qs).Pairwise
      (fun a b => b.score.getD 0 ≤ a.score.getD 0) := by
  subst hr hq
  have hrs : ∀ r ∈ SearchMem.search_redis query user_id items limit,
      r.source = "redis" :=
    fun r h => search_redis_source query user_id items limit r h
  have hqs : ∀ q ∈ SearchMem.search_qdrant embedOk points user_id limit,
      q.source = "qdrant" :=
    fun q h => search_qdrant_source embedOk points user_id limit q h
  have h1 : List.filter (fun r => r.source == "redis")
      (SearchMem.search_redis query user_id items limit) =
      SearchMem.search_redis query user_id items limit :=
    List.filter_eq_self.mpr fun a ha => by rw [hrs a ha]; rfl
  have h2 : List.filter (fun r => r.source == "redis")
      (SearchMem.search_qdrant embedOk points user_id limit) = [] :=
    List.filter_eq_nil_iff.mpr fun a ha => by rw [hqs a ha]; decide
  have h3 : List.filter (fun r => r.source == "qdrant")
      (SearchMem.search_redis query user_id items limit) = [] :=
    List.filter_eq_nil_iff.mpr fun a ha => by rw [hrs a ha]; decide
  have h4 : List.filter (fun r => r.source == "qdrant")
      (SearchMem.search_qdrant embedOk points user_id limit) =
      SearchMem.search_qdrant embedOk points user_id limit :=
    List.filter_eq_self.mpr fun a ha => by rw [hqs a ha]; rfl
  refine ⟨?_, hrs, ?_, ?_⟩
  · unfold SearchMem.search_main SearchMem.combined_display
    dsimp only
    rw [List.filter_append, List.filter_append, h1, h2, h3, h4,
      List.append_nil, List.nil_append]
  · intro q hq'
    exact hqs q ((mem_pySort _ _ _).1 hq')
  · have htotal : ∀ a b : SearchMem.SResult,
        SearchMem.scoreDescLe a b = true ∨ SearchMem.scoreDescLe b a = true := by
      intro a b
      unfold SearchMem.scoreDescLe
      rcases le_total (b.score.getD 0) (a.score.getD 0) with h | h
      · exact Or.inl (decide_eq_true h)
      · exact Or.inr (decide_eq_true h)
    have htrans : ∀ a b c : SearchMem.SResult,
        SearchMem.scoreDescLe a b = true → SearchMem.scoreDescLe b c = true →
        SearchMem.scoreDescLe a c = true := by
      intro a b c hab hbc
      unfold SearchMem.scoreDescLe at *
      exact decide_eq_true (le_trans (of_decide_eq_true hbc) (of_decide_eq_true hab))
    exact (pairwise_pySort SearchMem.scoreDescLe htotal htrans _).imp
      fun h => of_decide_eq_true h

/-- C8 witness: a concrete hybrid run returning 2 buffer matches and 3
vector matches lists the buffer matches first, then the vector matches by
descending score. -/
theorem C8_hybrid_output_order_witness :
    (Examples.rsC8 = SearchMem.search_redis "abc" "rob" Examples.itemsC8 10 ∧
     Examples.qsC8 = SearchMem.search_qdrant true Examples.pointsC8 "rob" 10) ∧
    (SearchMem.search_main "abc" "rob" 10 Examples.itemsC8 true Examples.pointsC8 =
      Examples.rsC8 ++ pySort SearchMem.scoreDescLe Examples.qsC8 ∧
    (∀ r ∈ Examples.rsC8, r.source = "redis") ∧
    (∀ q ∈ pySort SearchMem.scoreDescLe Examples.qsC8, q.source = "qdrant") ∧
    (pySort SearchMem.scoreDescLe Examples.qsC8).Pairwise
      (fun a b => b.score.getD 0 ≤ a.score.getD 0)) :=
  ⟨⟨by decide, by decide⟩,
   C8_hybrid_output_order "abc" "rob" 10 Examples.itemsC8 true Examples.pointsC8
     Examples.rsC8 Examples.qsC8 (by decide) (by decide)⟩

/-- C9: every point uploaded by Fact-Extraction has a payload with no
`user_id` key, and the `user_id`-filtered Vector Store search used by
retrieval returns only points carrying that key with the searched value —
so it never returns a fact-extraction point. -/
theorem C9_fact_points_never_in_user_search :
    (∀ (fact : ExtractFacts.Fact) (date now : String),
        (ExtractFacts.fact_payload fact date now).lookup "user_id" = none) ∧
    (∀ (embedOk : String → Bool) (upsertOk : Nat → Bool)
        (facts : List ExtractFacts.Fact) (date now : String)
        (batch_size : Nat) (st : Store) (p : MPoint),
        p ∈ (ExtractFacts.upload_facts_batch embedOk upsertOk facts date now
          batch_size st).1 →
        p ∈ st ∨ p.payload.lookup "user_id" = none) ∧
    (∀ (points : List (MPoint × ℚ)) (user_id : String) (limit : Nat)
        (pq : MPoint × ℚ),
        pq ∈ SearchMem.qdrant_search_hits points user_id limit →
        pq.1.payload.lookup "user_id" = some (JVal.s user_id)) ∧
    (∀ (points : List (MPoint × ℚ)) (user_id : String) (limit : Nat)
        (pq : MPoint × ℚ),
        pq ∈ SearchMem.qdrant_search_hits points user_id limit →
        ∀ (fact : ExtractFacts.Fact) (date now : String),
          pq.1.payload ≠ ExtractFacts.fact_payload fact date now) := by
  refine ⟨fun _ _ _ => rfl, upload_facts_batch_mem, ?_, ?_⟩
  · intro points user_id limit pq h
    exact (mem_qdrant_search_hits points user_id limit pq h).2
  · intro points user_id limit pq h fact date now hcontra
    have h1 := (mem_qdrant_search_hits points user_id limit pq h).2
    rw [hcontra] at h1
    have h2 : (ExtractFacts.fact_payload fact date now).lookup "user_id" = none := rfl
    rw [h2] at h1
    cases h1

/-- C6 counterexample: a transcript record whose content is the plain
string `" "` — visible text consisting only of whitespace — is NOT
dropped: Capture appends one BufferEntry whose content is `" "` (plain
strings are not stripped; only fragment lists are).  This falsifies the
claim that whitespace-only records are dropped regardless of content
shape. -/
theorem C6_counterexample_whitespace_plain_string_kept :
    CronCapture.parse_new_messages false "NOW" "sess"
        [.entry "message" true (some "user") (.str " ") (some "T1")] =
      [⟨"user", " ", none, "T1", "sess"⟩] ∧
    pyStrip " " = "" := by
  exact ⟨by decide, by decide⟩

/-- C6 amended: with thinking capture disabled (the default), a record
whose extracted visible text is the empty string is dropped, so every
stored BufferEntry's content is non-empty as a string; fragment-list
content is stripped (whitespace-only lists are dropped), but a
plain-string content consisting only of whitespace is kept and stored
as-is. -/
theorem C6_amended_stored_content_nonempty (now session_id : String)
    (lines : List CronCapture.TLine) (m : CronCapture.ParsedMessage)
    (hm : m ∈ CronCapture.parse_new_messages false now session_id lines) :
    m.text ≠ "" := by
  induction lines with
  | nil => cases hm
  | cons l rest ih =>
    cases l with
    | malformed =>
      simp only [CronCapture.parse_new_messages] at hm
      exact ih hm
    | entry etype hasMsg role content ts =>
      simp only [CronCapture.parse_new_messages] at hm
      split at hm
      · exact ih hm
      · cases role with
        | none => exact ih hm
        | some r =>
          dsimp only at hm
          split at hm
          · exact ih hm
          · split at hm
            · exact ih hm
            · split at hm
              · exact ih hm
              · rename_i hkeep
                rcases List.mem_cons.1 hm with rfl | hm'
                · show pyTake (CronCapture.extract_text_and_thinking content).1 8000 ≠ ""
                  apply pyTake_ne_empty ?_ 8000 (by omega)
                  intro hempty
                  apply hkeep
                  simp [hempty]
                · exact ih hm'

/-- C6 amended witness: a concrete record with non-empty text is stored
with non-empty content. -/
theorem C6_amended_stored_content_nonempty_witness :
    (⟨"user", "hello", none, "T", "s"⟩ : CronCapture.ParsedMessage) ∈
      CronCapture.parse_new_messages false "NOW" "s"
        [.entry "message" true (some "user") (.str "hello") (some "T")] ∧
    (⟨"user", "hello", none, "T", "s"⟩ : CronCapture.ParsedMessage).text ≠ "" :=
  ⟨by decide,
   C6_amended_stored_content_nonempty "NOW" "s"
     [.entry "message" true (some "user") (.str "hello") (some "T")]
     ⟨"user", "hello", none, "T", "s"⟩ (by decide)⟩

/-- C7 counterexample: the single bullet line `- abcd` yields one
FactRecord whose extracted fragment `abcd` has 4 < 5 characters — the
bullet rule keeps fragments longer than 3 characters, not 5. -/
theorem C7_counterexample_four_char_bullet_kept :
    ExtractFacts.parse_markdown_sections "- abcd" "2026-01-01" =
      [⟨"General: abcd", ["atomic-fact", "2026-01-01"], "medium", "inferred",
        "General"⟩] ∧
    ("abcd" : String).length < 5 := by
  exact ⟨by decide, by decide⟩

/-- C7 amended: Fact-Extraction discards paragraph fragments shorter than
5 characters (and sentence fragments of 10 or fewer), while bullet and
numbered-list fragments are discarded only when 3 characters or shorter —
so every paragraph/sentence FactRecord carries a fragment of at least 5
characters and every bullet/numbered FactRecord a fragment of at least
4. -/
theorem C7_amended_min_fragment_lengths :
    (∀ (sect date : String) (contentLines : List String)
        (f : ExtractFacts.Fact),
        f ∈ ExtractFacts.flush_facts sect date contentLines →
        ∃ frag, f.text = sect ++ ": " ++ frag ∧ 5 ≤ frag.length) ∧
    (∀ (sect date line : String) (f : ExtractFacts.Fact),
        f ∈ ExtractFacts.bullet_facts sect date line →
        ∃ frag, f.text = sect ++ ": " ++ frag ∧ 4 ≤ frag.length) ∧
    (∀ (sect date line : String) (f : ExtractFacts.Fact),
        f ∈ ExtractFacts.numbered_facts sect date line →
        ∃ frag, f.text = sect ++ ": " ++ frag ∧ 4 ≤ frag.length) := by
  refine ⟨?_, ?_, ?_⟩
  · intro sect date contentLines f hf
    unfold ExtractFacts.flush_facts at hf
    split at hf
    · cases hf
    · dsimp only at hf
      obtain ⟨para, hpara, hf⟩ := List.mem_flatMap.1 hf
      split at hf
      · cases hf
      · next hge =>
        split at hf
        · obtain ⟨sentence, hs, hsf⟩ := List.mem_filterMap.1 hf
          split at hsf
          · next hlen =>
            cases hsf
            refine ⟨pyTake sentence 500, rfl, ?_⟩
            rw [length_pyTake]
            omega
          · cases hsf
        · rw [List.mem_singleton] at hf
          subst hf
          refine ⟨pyTake para 500, rfl, ?_⟩
          rw [length_pyTake]
          omega
  · intro sect date line f hf
    unfold ExtractFacts.bullet_facts at hf
    dsimp only at hf
    split at hf
    · next hlen =>
      rw [List.mem_singleton] at hf
      subst hf
      refine ⟨pyTake (pyStrip (pyDrop line 2)) 500, rfl, ?_⟩
      rw [length_pyTake]
      omega
    · cases hf
  · intro sect date line f hf
    unfold ExtractFacts.numbered_facts at hf
    dsimp only at hf
    split at hf
    · next hlen =>
      rw [List.mem_singleton] at hf
      subst hf
      refine ⟨pyTake (ExtractFacts.strip_number_marker line) 500, rfl, ?_⟩
      rw [length_pyTake]
      omega
    · cases hf

/-- C1: For every promotion run (normal mode, readable buffer) over a
non-empty buffer, the Short-Term Buffer key is deleted only when every
attempted exchange was stored or recognized as a duplicate; if any
exchange failed, the key is not deleted (the buffer survives in full —
the only deletion the code performs is of the whole key) and the process
exits non-zero. -/
theorem C1_clear_only_after_full_durability (envs : Nat → AutoStore.CallEnv)
    (now today user_id : String) (turns : List CronBackup.Turn)
    (file_ok clear_ok : Bool) (st : Store) (out : CronBackup.RunOutcome)
    (hne : turns ≠ [])
    (hout : out = CronBackup.cron_backup_main envs now today false true turns
      user_id file_ok clear_ok st) :
    (out.cleared = true → ∀ r ∈ out.results, CronBackup.storedOrSkipped r = true) ∧
    ((∃ r ∈ out.results, CronBackup.storedOrSkipped r = false) →
      out.cleared = false ∧ out.exitCode ≠ 0) := by
  subst hout
  cases turns with
  | nil => exact absurd rfl hne
  | cons a l =>
    rcases hq : CronBackup.store_to_qdrant envs now today (a :: l) user_id st with
      ⟨st2, ok, results⟩
    cases ok with
    | false =>
      have hmain : CronBackup.cron_backup_main envs now today false true (a :: l)
          user_id file_ok clear_ok st = ⟨1, false, st2, file_ok, results⟩ := by
        simp [CronBackup.cron_backup_main, hq]
      rw [hmain]
      refine ⟨fun h => ?_, fun _ => ⟨rfl, ?_⟩⟩
      · simp at h
      · simp
    | true =>
      have hall := store_to_qdrant_ok_all envs now today (a :: l) user_id st st2 results hq
      cases clear_ok with
      | false =>
        have hmain : CronBackup.cron_backup_main envs now today false true (a :: l)
            user_id file_ok false st = ⟨1, false, st2, false, results⟩ := by
          simp [CronBackup.cron_backup_main, hq]
        rw [hmain]
        refine ⟨fun h => ?_, fun _ => ⟨rfl, ?_⟩⟩
        · simp at h
        · simp
      | true =>
        have hmain : CronBackup.cron_backup_main envs now today false true (a :: l)
            user_id file_ok true st = ⟨0, true, st2, false, results⟩ := by
          simp [CronBackup.cron_backup_main, hq]
        rw [hmain]
        constructor
        · intro _
          exact hall
        · rintro ⟨r, hr, hfail⟩
          rw [hall r hr] at hfail
          cases hfail

/-- C1 witness: with one of two attempted exchanges failing to embed, the
run does not clear the buffer and exits non-zero. -/
theorem C1_clear_only_after_full_durability_witness :
    (Examples.turnsC1 ≠ []) ∧
    (((CronBackup.cron_backup_main Examples.envsC1 "NOW" "TD" false true
        Examples.turnsC1 "rob" true true []).cleared = true →
      ∀ r ∈ (CronBackup.cron_backup_main Examples.envsC1 "NOW" "TD" false true
        Examples.turnsC1 "rob" true true []).results,
        CronBackup.storedOrSkipped r = true) ∧
    ((∃ r ∈ (CronBackup.cron_backup_main Examples.envsC1 "NOW" "TD" false true
        Examples.turnsC1 "rob" true true []).results,
        CronBackup.storedOrSkipped r = false) →
      (CronBackup.cron_backup_main Examples.envsC1 "NOW" "TD" false true
        Examples.turnsC1 "rob" true true []).cleared = false ∧
      (CronBackup.cron_backup_main Examples.envsC1 "NOW" "TD" false true
        Examples.turnsC1 "rob" true true []).exitCode ≠ 0)) :=
  ⟨by decide,
   C1_clear_only_after_full_durability Examples.envsC1 "NOW" "TD" "rob"
     Examples.turnsC1 true true [] _ (by decide) rfl⟩

/-- C2 counterexample: for the sorted buffer
`[user:"A", user:"C", assistant:"D"]` the backup loop attempts TWO
exchanges — `(A, "")` and `(C, "D")` — and the unpaired user turn A does
produce MemoryPoints (6 points in total, among them one with text
`"[rob]: A"`), falsifying "exactly one exchange (C,D) is stored and A
produces no MemoryPoints". -/
theorem C2_counterexample_unpaired_user_turn_is_stored :
    CronBackup.pair_ups (CronBackup.sortTurns Examples.turnsC2) =
      [("A", ""), ("C", "D")] ∧
    (CronBackup.store_to_qdrant (fun _ => AutoStore.CallEnv.allOk) "NOW"
      "2026-01-05" Examples.turnsC2 "rob" []).1.length = 6 ∧
    ((CronBackup.store_to_qdrant (fun _ => AutoStore.CallEnv.allOk) "NOW"
      "2026-01-05" Examples.turnsC2 "rob" []).1.filter
        (fun p => p.payload.lookup "text" == some (.s "[rob]: A"))).length = 1 := by
  exact ⟨by decide, by decide, by decide⟩

/-- C2 amended: a buffer entry with role `user` that has no following
`assistant` entry before the next `user` entry is still stored, as an
exchange with an empty `ai_response` (best-effort pairing): for the
sorted buffer `[user:"A", user:"C", assistant:"D"]`, two exchanges
`(A, "")` and `(C, "D")` are attempted and stored, producing six
MemoryPoints, and the run reports success. -/
theorem C2_amended_unpaired_user_stored_with_empty_response :
    CronBackup.pair_ups (CronBackup.sortTurns Examples.turnsC2) =
      [("A", ""), ("C", "D")] ∧
    (CronBackup.store_to_qdrant (fun _ => AutoStore.CallEnv.allOk) "NOW"
      "2026-01-05" Examples.turnsC2 "rob" []).2.2.map Except.toOption =
      [some ⟨true, true, true, false⟩, some ⟨true, true, true, false⟩] ∧
    (CronBackup.store_to_qdrant (fun _ => AutoStore.CallEnv.allOk) "NOW"
      "2026-01-05" Examples.turnsC2 "rob" []).2.1 = true ∧
    (CronBackup.store_to_qdrant (fun _ => AutoStore.CallEnv.allOk) "NOW"
      "2026-01-05" Examples.turnsC2 "rob" []).1.length = 6 := by
  exact ⟨by decide, by decide, by decide, by decide⟩

/-- C10: a non-empty buffer whose decoded turns contain no `user`-role
entry makes the promotion run report success without any Vector Store
write and clear the buffer: assistant-only turns are deleted without ever
being stored durably. -/
theorem C10_no_user_turns_cleared_without_writes (envs : Nat → AutoStore.CallEnv)
    (now today user_id : String) (turns : List CronBackup.Turn)
    (file_ok : Bool) (st : Store)
    (hne : turns ≠ [])
    (hnouser : ∀ t ∈ turns, t.role.getD "" ≠ "user") :
    (CronBackup.cron_backup_main envs now today false true turns user_id
      file_ok true st).exitCode = 0 ∧
    (CronBackup.cron_backup_main envs now today false true turns user_id
      file_ok true st).cleared = true ∧
    (CronBackup.cron_backup_main envs now today false true turns user_id
      file_ok true st).store = st ∧
    (CronBackup.cron_backup_main envs now today false true turns user_id
      file_ok true st).results = [] := by
  have hfilter : (CronBackup.sortTurns turns).filter
      (fun t => t.role.getD "" == "user") = [] :=
    List.filter_eq_nil_iff.mpr fun t ht => by
      have h := hnouser t ((mem_pySort _ _ _).1 ht)
      simpa using h
  have hq : CronBackup.store_to_qdrant envs now today turns user_id st =
      (st, true, []) := by
    unfold CronBackup.store_to_qdrant
    dsimp only
    rw [hfilter]
    rfl
  cases turns with
  | nil => exact absurd rfl hne
  | cons a l =>
    have hmain : CronBackup.cron_backup_main envs now today false true (a :: l)
        user_id file_ok true st = ⟨0, true, st, false, []⟩ := by
      simp [CronBackup.cron_backup_main, hq]
    rw [hmain]
    exact ⟨rfl, rfl, rfl, rfl⟩

/-- C10 witness: a concrete assistant-only buffer is cleared with exit
code 0 and an unchanged Vector Store. -/
theorem C10_no_user_turns_cleared_without_writes_witness :
    (Examples.turnsC10 ≠ [] ∧
     ∀ t ∈ Examples.turnsC10, t.role.getD "" ≠ "user") ∧
    ((CronBackup.cron_backup_main (fun _ => AutoStore.CallEnv.allOk) "NOW" "TD"
        false true Examples.turnsC10 "rob" true true []).exitCode = 0 ∧
     (CronBackup.cron_backup_main (fun _ => AutoStore.CallEnv.allOk) "NOW" "TD"
        false true Examples.turnsC10 "rob" true true []).cleared = true ∧
     (CronBackup.cron_backup_main (fun _ => AutoStore.CallEnv.allOk) "NOW" "TD"
        false true Examples.turnsC10 "rob" true true []).store = [] ∧
     (CronBackup.cron_backup_main (fun _ => AutoStore.CallEnv.allOk) "NOW" "TD"
        false true Examples.turnsC10 "rob" true true []).results = []) :=
  ⟨⟨by decide, by decide⟩,
   C10_no_user_turns_cleared_without_writes (fun _ => AutoStore.CallEnv.allOk)
     "NOW" "TD" "rob" Examples.turnsC10 true [] (by decide) (by decide)⟩

/-- C5 counterexample: with the summary embedding failing (user and
assistant writes succeeding), `store_conversation_turn` reaches a state
where only 2 of the 3 MemoryPoints were written while the exchange counts
as stored (`success = true`) — the three points are not one atomic batch
write. -/
theorem C5_counterexample_partial_write_counts_stored :
    (AutoStore.store_conversation_turn ⟨true, true, true, true, true, false, true⟩
        "NOW" "TODAY" "rob" "hi" "yo" none none none none true [] []).toOption.map
      (fun x => (x.2.2.success, x.2.1.length)) = some (true, 2) := by
  decide

/-- C5 amended: for a non-duplicate exchange the three MemoryPoints are
written by three separate single-point upserts, each failing
independently; the exchange counts as stored exactly when the user point
and the assistant point were both written, regardless of the summary
point. -/
theorem C5_amended_three_separate_writes (env : AutoStore.CallEnv)
    (now today user_id um ar : String) (conv : Option String)
    (turn : Option Nat) (sid : Option String) (date : Option String)
    (skip : Bool) (c : AutoStore.HashCache) (st : Store)
    (out : AutoStore.HashCache × Store × AutoStore.TurnResult)
    (huid : user_id ≠ "")
    (hnd : (skip && AutoStore.is_duplicate env.dedupQueryOk st c user_id um ar) = false)
    (hcall : AutoStore.store_conversation_turn env now today user_id um ar
      conv turn sid date skip c st = .ok out) :
    out.2.2.success = ((env.userEmbedOk && env.userUpsertOk) &&
      (env.aiEmbedOk && env.aiUpsertOk)) ∧
    out.2.2.skipped = false ∧
    out.2.1.length = st.length + (env.userEmbedOk && env.userUpsertOk).toNat +
      (env.aiEmbedOk && env.aiUpsertOk).toNat +
      (env.sumEmbedOk && env.sumUpsertOk).toNat := by
  unfold AutoStore.store_conversation_turn at hcall
  rw [if_neg (by simpa using huid)] at hcall
  dsimp only at hcall
  rw [if_neg (by rw [hnd]; exact Bool.false_ne_true)] at hcall
  injection hcall with h
  subst h
  refine ⟨?_, rfl, ?_⟩
  · dsimp only
    rw [store_memory_point_stored, store_memory_point_stored]
  · dsimp only
    cases hsum : env.sumEmbedOk && env.sumUpsertOk <;>
      simp [store_memory_point_length]

/-- C5 amended witness: a concrete non-duplicate call with a failed
summary embed counts as stored with exactly the user and assistant points
written. -/
theorem C5_amended_three_separate_writes_witness :
    (("rob" : String) ≠ "" ∧
     (true && AutoStore.is_duplicate Examples.envC5.dedupQueryOk [] [] "rob" "hi" "yo") = false ∧
     AutoStore.store_conversation_turn Examples.envC5
       "NOW" "TODAY" "rob" "hi" "yo" none none none none true [] [] =
       .ok Examples.outC5) ∧
    (Examples.outC5.2.2.success = ((Examples.envC5.userEmbedOk && Examples.envC5.userUpsertOk) &&
       (Examples.envC5.aiEmbedOk && Examples.envC5.aiUpsertOk)) ∧
     Examples.outC5.2.2.skipped = false ∧
     Examples.outC5.2.1.length = ([] : Store).length +
       (Examples.envC5.userEmbedOk && Examples.envC5.userUpsertOk).toNat +
       (Examples.envC5.aiEmbedOk && Examples.envC5.aiUpsertOk).toNat +
       (Examples.envC5.sumEmbedOk && Examples.envC5.sumUpsertOk).toNat) :=
  ⟨⟨by decide, by decide, rfl⟩,
   C5_amended_three_separate_writes Examples.envC5 "NOW" "TODAY" "rob" "hi" "yo"
     none none none none true [] [] Examples.outC5 (by decide) (by decide) rfl⟩

/-- C3 counterexample: one successful `store_conversation_turn` on an
empty store writes TWO points with `source_type != system` — the user
point and the assistant point — carrying the same
`(user_id, content_hash)` pair, so "at most one MemoryPoint with
source_type != system" per pair is false after a single store
operation. -/
theorem C3_counterexample_two_non_system_points_per_hash :
    (AutoStore.store_conversation_turn .allOk "NOW" "TODAY" "rob" "hi" "yo"
      none none none none true [] []).toOption.map
      (fun x => AutoStore.nonSystemDupCount x.2.1 "rob"
        (AutoStore.get_content_hash "hi" "yo")) = some 2 := by
  decide

/-- C3 amended: after any sequence of store operations (from an empty
Vector Store, with the dedup scroll reachable and duplicate skipping at
its default), every `(user_id, content_hash)` pair has at most one
MemoryPoint with `source_type = user`, at most one with
`source_type = assistant`, and hence at most TWO with
`source_type != system`. -/
theorem C3_amended_at_most_one_point_per_source_type
    (ops : List AutoStore.StoreOp)
    (hops : ∀ op ∈ ops, op.env.dedupQueryOk = true ∧ op.skip_if_duplicate = true) :
    ∀ uid h,
      AutoStore.typedDupCount (AutoStore.run_store_ops ops ([], [])).2 uid h "user" ≤ 1 ∧
      AutoStore.typedDupCount (AutoStore.run_store_ops ops ([], [])).2 uid h "assistant" ≤ 1 ∧
      AutoStore.nonSystemDupCount (AutoStore.run_store_ops ops ([], [])).2 uid h ≤ 2 :=
  run_store_ops_inv ops hops [] []
    (fun _ _ => by simp [AutoStore.typedDupCount, AutoStore.nonSystemDupCount])

/-- C3 amended witness: a concrete two-operation sequence repeating the
same exchange keeps the per-pair counts within bounds. -/
theorem C3_amended_at_most_one_point_per_source_type_witness :
    (∀ op ∈ [Examples.opC3, Examples.opC3],
      op.env.dedupQueryOk = true ∧ op.skip_if_duplicate = true) ∧
    (∀ uid h,
      AutoStore.typedDupCount
        (AutoStore.run_store_ops [Examples.opC3, Examples.opC3] ([], [])).2 uid h "user" ≤ 1 ∧
      AutoStore.typedDupCount
        (AutoStore.run_store_ops [Examples.opC3, Examples.opC3] ([], [])).2 uid h "assistant" ≤ 1 ∧
      AutoStore.nonSystemDupCount
        (AutoStore.run_store_ops [Examples.opC3, Examples.opC3] ([], [])).2 uid h ≤ 2) :=
  ⟨by decide,
   C3_amended_at_most_one_point_per_source_type [Examples.opC3, Examples.opC3]
     (by decide)⟩

/-- C4: promotion is idempotent with respect to content.  Over a buffer
whose exchanges are pairwise distinct and not yet stored, the first
all-successful run writes exactly three MemoryPoints per exchange and
reports every attempt stored; a second run over the same buffer contents
(with the dedup scroll reachable) performs zero additional Vector Store
writes, classifying every exchange as skipped on its
`(user_id, content_hash)` pair, and still reports success. -/
theorem C4_promotion_idempotent (envs2 : Nat → AutoStore.CallEnv)
    (now1 today1 now2 today2 uid : String) (turns : List CronBackup.Turn)
    (st0 : Store) (r1 : Store × Bool × List (Except String AutoStore.TurnResult))
    (huid : uid ≠ "")
    (hdq2 : ∀ k, (envs2 k).dedupQueryOk = true)
    (hnodup : ((CronBackup.pair_ups (CronBackup.sortTurns turns)).map
      (fun pr => AutoStore.get_content_hash pr.1 pr.2)).Nodup)
    (hfresh : ∀ pr ∈ CronBackup.pair_ups (CronBackup.sortTurns turns),
      st0.any (AutoStore.matchesDup uid
        (AutoStore.get_content_hash pr.1 pr.2)) = false)
    (hr1 : r1 = CronBackup.store_to_qdrant (fun _ => AutoStore.CallEnv.allOk)
      now1 today1 turns uid st0) :
    r1.1.length = st0.length +
      3 * (CronBackup.pair_ups (CronBackup.sortTurns turns)).length ∧
    r1.2.1 = true ∧
    r1.2.2 = (CronBackup.pair_ups (CronBackup.sortTurns turns)).map
      (fun _ => .ok ⟨true, true, true, false⟩) ∧
    CronBackup.store_to_qdrant envs2 now2 today2 turns uid r1.1 =
      (r1.1, true, (CronBackup.pair_ups (CronBackup.sortTurns turns)).map
        (fun _ => .ok ⟨false, false, true, true⟩)) := by
  subst hr1
  by_cases hemp : ((CronBackup.sortTurns turns).filter
      (fun t => t.role.getD "" == "user")).isEmpty = true
  · have hfe : ((CronBackup.sortTurns turns).filter
        (fun t => t.role.getD "" == "user")) = [] := List.isEmpty_iff.mp hemp
    have hpz : CronBackup.pair_ups (CronBackup.sortTurns turns) = [] := by
      have hl := pair_ups_length (CronBackup.sortTurns turns)
      rw [hfe] at hl
      exact List.length_eq_zero.1 (by simpa using hl)
    have hq1 : CronBackup.store_to_qdrant (fun _ => AutoStore.CallEnv.allOk)
        now1 today1 turns uid st0 = (st0, true, []) := by
      unfold CronBackup.store_to_qdrant
      dsimp only
      rw [if_pos hemp]
    have hq2 : CronBackup.store_to_qdrant envs2 now2 today2 turns uid st0 =
        (st0, true, []) := by
      unfold CronBackup.store_to_qdrant
      dsimp only
      rw [if_pos hemp]
    rw [hq1, hpz]
    dsimp only
    exact ⟨by simp, rfl, by simp, by rw [List.map_nil, hq2]⟩
  · obtain ⟨cx, ext, hloop, hlen, hmem⟩ :=
      backupLoop_allOk now1 today1 uid huid (CronBackup.sortTurns turns) 0 0 [] st0
        hnodup (fun pr _ => rfl) hfresh
    have hpos : 0 < ((CronBackup.sortTurns turns).filter
        (fun t => t.role.getD "" == "user")).length := by
      rcases Nat.eq_zero_or_pos ((CronBackup.sortTurns turns).filter
          (fun t => t.role.getD "" == "user")).length with h0 | hp
      · exact absurd (List.isEmpty_iff_length_eq_zero.mpr h0) hemp
      · exact hp
    have hposp : 0 < (CronBackup.pair_ups (CronBackup.sortTurns turns)).length := by
      rw [pair_ups_length]
      exact hpos
    have hq1 : CronBackup.store_to_qdrant (fun _ => AutoStore.CallEnv.allOk)
        now1 today1 turns uid st0 =
        (st0 ++ ext, true,
         (CronBackup.pair_ups (CronBackup.sortTurns turns)).map
           (fun _ => .ok ⟨true, true, true, false⟩)) := by
      unfold CronBackup.store_to_qdrant
      dsimp only
      rw [if_neg hemp, hloop]
      dsimp only
      have hfilt : List.filter CronBackup.storedOrSkipped
          ((CronBackup.pair_ups (CronBackup.sortTurns turns)).map
            (fun _ => (Except.ok ⟨true, true, true, false⟩ :
              Except String AutoStore.TurnResult))) =
          (CronBackup.pair_ups (CronBackup.sortTurns turns)).map
            (fun _ => Except.ok ⟨true, true, true, false⟩) :=
        List.filter_eq_self.mpr fun a ha => by
          rcases List.mem_map.1 ha with ⟨pr, _, hpr⟩
          rw [← hpr]
          rfl
      rw [hfilt]
      simp only [List.length_map]
      rw [decide_eq_true hposp]
      rfl
    have hloop2 : CronBackup.backupLoop envs2 now2 today2 uid
        (CronBackup.sortTurns turns) 0 0 [] (st0 ++ ext) =
        ([], st0 ++ ext,
         (CronBackup.pair_ups (CronBackup.sortTurns turns)).map
           (fun _ => .ok ⟨false, false, true, true⟩)) :=
      backupLoop_skips envs2 now2 today2 uid huid hdq2
        (CronBackup.sortTurns turns) 0 0 [] (st0 ++ ext) hmem
    have hq2 : CronBackup.store_to_qdrant envs2 now2 today2 turns uid (st0 ++ ext) =
        (st0 ++ ext, true,
         (CronBackup.pair_ups (CronBackup.sortTurns turns)).map
           (fun _ => .ok ⟨false, false, true, true⟩)) := by
      unfold CronBackup.store_to_qdrant
      dsimp only
      rw [if_neg hemp, hloop2]
      dsimp only
      have hfilt2 : List.filter CronBackup.storedOrSkipped
          ((CronBackup.pair_ups (CronBackup.sortTurns turns)).map
            (fun _ => (Except.ok ⟨false, false, true, true⟩ :
              Except String AutoStore.TurnResult))) =
          (CronBackup.pair_ups (CronBackup.sortTurns turns)).map
            (fun _ => Except.ok ⟨false, false, true, true⟩) :=
        List.filter_eq_self.mpr fun a ha => by
          rcases List.mem_map.1 ha with ⟨pr, _, hpr⟩
          rw [← hpr]
          rfl
      rw [hfilt2]
      simp only [List.length_map]
      rw [decide_eq_true hposp]
      rfl
    rw [hq1]
    dsimp only
    exact ⟨by rw [List.length_append, hlen], rfl, rfl, hq2⟩

/-- C4 witness: running promotion twice from an empty store on a concrete
two-exchange buffer stores six points on the first run and skips both
exchanges (zero additional writes) on the second. -/
theorem C4_promotion_idempotent_witness :
    (CronBackup.store_to_qdrant (fun _ => AutoStore.CallEnv.allOk) "N1" "D1"
        Examples.turnsC1 "rob" []).1.length =
      List.length ([] : Store) +
        3 * (CronBackup.pair_ups (CronBackup.sortTurns Examples.turnsC1)).length ∧
    (CronBackup.store_to_qdrant (fun _ => AutoStore.CallEnv.allOk) "N1" "D1"
        Examples.turnsC1 "rob" []).2.1 = true ∧
    (CronBackup.store_to_qdrant (fun _ => AutoStore.CallEnv.allOk) "N1" "D1"
        Examples.turnsC1 "rob" []).2.2 =
      (CronBackup.pair_ups (CronBackup.sortTurns Examples.turnsC1)).map
        (fun _ => .ok ⟨true, true, true, false⟩) ∧
    CronBackup.store_to_qdrant (fun _ => AutoStore.CallEnv.allOk) "N2" "D2"
      Examples.turnsC1 "rob"
      (CronBackup.store_to_qdrant (fun _ => AutoStore.CallEnv.allOk) "N1" "D1"
        Examples.turnsC1 "rob" []).1 =
      ((CronBackup.store_to_qdrant (fun _ => AutoStore.CallEnv.allOk) "N1" "D1"
        Examples.turnsC1 "rob" []).1, true,
       (CronBackup.pair_ups (CronBackup.sortTurns Examples.turnsC1)).map
        (fun _ => .ok ⟨false, false, true, true⟩)) :=
  C4_promotion_idempotent (fun _ => AutoStore.CallEnv.allOk) "N1" "D1" "N2" "D2"
    "rob" Examples.turnsC1 []
    (CronBackup.store_to_qdrant (fun _ => AutoStore.CallEnv.allOk) "N1" "D1"
      Examples.turnsC1 "rob" [])
    (by decide) (fun _ => rfl) (by decide) (by decide) rfl

end MemSpec



